import Mathlib

/-!
Shallow embedding of the GridDesigner stick-figure animation editor
(`stickfigureanimation.py`, `app/animationUtils/animationGUI.py`,
`interactivegrid.py`) together with theorems settling the frozen claims.

Modelling conventions:
* Python dicts keyed by `"row,col"` strings (the sparse cell maps) are
  modelled as association lists keyed by the parsed integer pair; dict
  lookup/assignment/deletion are `getv`/`insertBox`/`eraseBox`.  A Python
  dict never holds two entries with one key, so later entries win in
  `getv` exactly as later assignments do.
* Python `//` (floor division; all divisors in the source are positive)
  is `Int` division `/` (Euclidean, which agrees with floor division for
  positive divisors); Python `int(x)` applied to the exact quotient of
  integers is truncation toward zero, `Int.tdiv`.
* Methods that mutate `self` become functions from the state to the new
  state; methods that can raise return `Except`/`Option` or a `Bool`
  success flag paired with the state, mirroring the source's returns.
* `x or y` on strings/ints/lists (Python truthiness) is modelled by the
  explicit emptiness/zero tests written out at each site.
-/

namespace GridDesigner

/-- A grid coordinate `(row, col)` — the parsed form of a `"row,col"` key. -/
abbrev Coord := Int × Int

/-- A sparse cell map (`boxes` dict): association list from coordinates to
integer cell values. -/
abbrev Boxes := List (Coord × Int)

/-- Dict lookup (`boxes.get(key)` / `key in boxes`): the value of the last
entry with the given key, if any. -/
def getv : Boxes → Coord → Option Int
  | [], _ => none
  | p :: rest, k =>
    match getv rest k with
    | some v => some v
    | none => if p.1 = k then some p.2 else none

/-- Embeds `key in boxes`. -/
def hasKey (b : Boxes) (k : Coord) : Bool :=
  b.any (fun p => p.1 = k)

/-- Dict assignment `boxes[key] = v`: replace the entry if the key is
present, otherwise append it. -/
def insertBox (b : Boxes) (k : Coord) (v : Int) : Boxes :=
  if hasKey b k then b.map (fun p => if p.1 = k then (k, v) else p)
  else b ++ [(k, v)]

/-- Dict deletion `boxes.pop(key, None)`: remove every entry with the key. -/
def eraseBox (b : Boxes) (k : Coord) : Boxes :=
  b.filter (fun p => !(p.1 = k : Bool))

/-- Embeds `for key in keys: boxes.pop(key, None)`. -/
def eraseAll (b : Boxes) (ks : List Coord) : Boxes :=
  ks.foldl eraseBox b

/-- Embeds `boxes.update(new_boxes)`: assign every entry of `nb` into `b`. -/
def updateAll (b : Boxes) (nb : Boxes) : Boxes :=
  nb.foldl (fun acc p => insertBox acc p.1 p.2) b

/-- A frame JSON object: sparse `boxes` plus grid metadata.  A missing
`boxes` key behaves as the empty dict (`frame.get('boxes', {})`) and is
modelled as `[]`. -/
structure Frame where
  boxes : Boxes
  grid_width : Option Int
  grid_height : Option Int
  default_color : Option Int
  stick_figure_color : Option String
  deriving DecidableEq

/-- A background JSON object.  `boxes = none` models a dict without a
`"boxes"` key (including the empty, falsy dict); such a background is
skipped by the compositors. -/
structure Background where
  boxes : Option Boxes
  default_color : Option Int
  deriving DecidableEq

/-- The mutable fields of `StickFigureAnimation` (and of its subclass
`AnimationGUI`). -/
structure AnimState where
  frames : List Frame
  timings : List Int
  backgrounds : List (Option Background)
  frame_names : List String
  background_names : List String
  grid_width : Option Int
  grid_height : Option Int
  default_color : Int
  cell_size : Int
  viewport_mode : String
  viewport_padding : Int
  viewport_min_w : Int
  viewport_min_h : Int
  lock_viewport : Bool
  deriving DecidableEq

/-- Embeds `StickFigureAnimation.__init__`. -/
def initState : AnimState :=
  { frames := [], timings := [], backgrounds := [], frame_names := []
    background_names := [], grid_width := none, grid_height := none
    default_color := 0, cell_size := 10, viewport_mode := "full"
    viewport_padding := 2, viewport_min_w := 16, viewport_min_h := 16
    lock_viewport := true }

/-! ## Viewport calculation (`compute_viewport`, `compute_global_viewport`) -/

/-- The coordinates of the entries whose value differs from the resolved
default color (the loop building `xs`, `ys`). -/
def contentCells (b : Boxes) (defaultColor : Int) : List Coord :=
  (b.filter (fun p => !(p.2 = defaultColor : Bool))).map (fun p => p.1)

/-- Embeds `(min xs, max xs, min ys, max ys)` over a coordinate list, i.e.
`(min_c, max_c, min_r, max_r)`; `none` when the list is empty. -/
def bboxOf : List Coord → Option (Int × Int × Int × Int)
  | [] => none
  | (r, c) :: rest =>
    match bboxOf rest with
    | none => some (c, c, r, r)
    | some (mnc, mxc, mnr, mxr) =>
        some (min c mnc, max c mxc, min r mnr, max r mxr)

/-- One axis of the shared pad → minimum-size-expand → clamp step
(lines 213–243 of `compute_viewport`, identical in
`compute_global_viewport`, lines 305–334; the source comments "same logic
as single-frame").  Given the grid extent `g`, padding, minimum size and
the content interval `[lo, hi]`, returns `(origin, length)`. -/
def expandClampAxis (g pad minS lo hi : Int) : Int × Int :=
  let a0 := max 0 (lo - pad)
  let a1 := min (g - 1) (hi + pad)
  let len := a1 - a0 + 1
  let step :=
    if len < minS then
      let extra := minS - len
      let lft := extra / 2
      let rgt := extra - lft
      let a0' := max 0 (a0 - lft)
      let a1' := min (g - 1) (a1 + rgt)
      (a0', a1', a1' - a0' + 1)
    else (a0, a1, len)
  let a0 := step.1
  let len := step.2.2
  let len := min len g
  let a0 := max 0 (min a0 (g - len))
  (a0, len)

/-- The pad/minimum-size/clamp step applied to both axes: from a content
bounding box `(min_c, max_c, min_r, max_r)` to a viewport
`(x0, y0, w, h)`. -/
def finalizeViewport (gw gh pad minW minH mnc mxc mnr mxr : Int) :
    Int × Int × Int × Int :=
  let x := expandClampAxis gw pad minW mnc mxc
  let y := expandClampAxis gh pad minH mnr mxr
  (x.1, y.1, x.2, y.2)

/-- Embeds `mode or self.viewport_mode` (empty strings are falsy). -/
def resolveMode (mode : Option String) (d : String) : String :=
  match mode with
  | some m => if m = "" then d else m
  | none => d

/-- Embeds `compute_viewport(self, frame, mode, padding, min_w, min_h)`
(lines 162–243).  A grid dimension missing from both the frame and the
state (a type error in the source) is modelled as `0`. -/
def computeViewport (st : AnimState) (frame : Frame) (mode : Option String)
    (padding minW minH : Option Int) : Int × Int × Int × Int :=
  let mode := resolveMode mode st.viewport_mode
  let padding := padding.getD st.viewport_padding
  let min_w := minW.getD st.viewport_min_w
  let min_h := minH.getD st.viewport_min_h
  let gw := frame.grid_width.getD (st.grid_width.getD 0)
  let gh := frame.grid_height.getD (st.grid_height.getD 0)
  if mode = "full" then (0, 0, gw, gh)
  else if mode = "half" then
    let w := max 1 (gw / 2)
    let h := max 1 (gh / 2)
    let x0 := max 0 ((gw - w) / 2)
    let y0 := max 0 ((gh - h) / 2)
    (x0, y0, w, h)
  else
    let default_color := frame.default_color.getD st.default_color
    match bboxOf (contentCells frame.boxes default_color) with
    | none =>
        let w := min gw min_w
        let h := min gh min_h
        let x0 := max 0 ((gw - w) / 2)
        let y0 := max 0 ((gh - h) / 2)
        (x0, y0, w, h)
    | some (mnc, mxc, mnr, mxr) =>
        finalizeViewport gw gh padding min_w min_h mnc mxc mnr mxr

/-- The accumulator of the frame loop in `compute_global_viewport`:
running grid dimensions and the running `(min_c, max_c, min_r, max_r)`
bounding box (the four Option values in the source become `none`/`some`
together, so they are kept jointly). -/
structure GVAcc where
  gw : Int
  gh : Int
  bbox : Option (Int × Int × Int × Int)
  deriving DecidableEq

/-- Componentwise min/max merge of two optional bounding boxes (the four
`if min_c is None or fmin_c < min_c: ...` updates). -/
def mergeBBox : Option (Int × Int × Int × Int) → Option (Int × Int × Int × Int) →
    Option (Int × Int × Int × Int)
  | none, b => b
  | some a, none => some a
  | some (a1, a2, a3, a4), some (b1, b2, b3, b4) =>
      some (min a1 b1, max a2 b2, min a3 b3, max a4 b4)

/-- The per-frame bounding box contributed inside the loop. -/
def frameBBox (stDefault : Int) (f : Frame) : Option (Int × Int × Int × Int) :=
  bboxOf (contentCells f.boxes (f.default_color.getD stDefault))

/-- One iteration of the frame loop of `compute_global_viewport`
(lines 268–295). -/
def gvStep (stDefault : Int) (acc : GVAcc) (f : Frame) : GVAcc :=
  { gw := f.grid_width.getD acc.gw
    gh := f.grid_height.getD acc.gh
    bbox := mergeBBox acc.bbox (frameBBox stDefault f) }

/-- Embeds `self.grid_width or <fallback>`: `None` and `0` are falsy. -/
def orTruthyInt (o : Option Int) (d : Int) : Int :=
  match o with
  | some v => if v = 0 then d else v
  | none => d

/-- The "nothing found across all frames" fallback of
`compute_global_viewport` (lines 298–303): a centered minimal viewport,
guarding each use of a dimension behind its truthiness. -/
def gvFallback (gw gh min_w min_h : Int) : Int × Int × Int × Int :=
  let w := if gw = 0 then min_w else min gw min_w
  let h := if gh = 0 then min_h else min gh min_h
  let x0 := if gw = 0 then 0 else max 0 ((gw - w) / 2)
  let y0 := if gh = 0 then 0 else max 0 ((gh - h) / 2)
  (x0, y0, w, h)

/-- Embeds `compute_global_viewport(self, frames, padding, min_w, min_h)`
(lines 245–334).  `framesArg = none` models passing `None` (the default);
`frames or self.frames` makes an empty argument fall back to
`self.frames`. -/
def computeGlobalViewport (st : AnimState) (framesArg : Option (List Frame))
    (padding minW minH : Option Int) : Int × Int × Int × Int :=
  let frames := match framesArg with
    | some l => if l.isEmpty then st.frames else l
    | none => st.frames
  if frames.isEmpty then (0, 0, st.grid_width.getD 0, st.grid_height.getD 0)
  else
    let padding := padding.getD st.viewport_padding
    let min_w := minW.getD st.viewport_min_w
    let min_h := minH.getD st.viewport_min_h
    let gw0 := orTruthyInt st.grid_width
      ((frames.head?.map (fun f => f.grid_width.getD 0)).getD 0)
    let gh0 := orTruthyInt st.grid_height
      ((frames.head?.map (fun f => f.grid_height.getD 0)).getD 0)
    let acc := frames.foldl (gvStep st.default_color)
      { gw := gw0, gh := gh0, bbox := none }
    match acc.bbox with
    | none => gvFallback acc.gw acc.gh min_w min_h
    | some (mnc, mxc, mnr, mxr) =>
        finalizeViewport acc.gw acc.gh padding min_w min_h mnc mxc mnr mxr

/-! ## Compositors (`draw_frame_on_canvas`, `draw_frame_to_image`) -/

/-- Embeds `s.startswith('#')`: the first character is `#`. -/
def strStartsWithHash (s : String) : Bool :=
  match s.data with
  | c :: _ => c = '#'
  | [] => false

/-- Embeds `str.lower()` (character-wise lowering). -/
def strLower (s : String) : String :=
  String.mk (s.data.map Char.toLower)

/-- Value of one hexadecimal digit (`int(..., 16)` on one character; a
non-hex character, which raises in the source, is modelled as `0`). -/
def hexDigit (ch : Char) : Int :=
  if ch.isDigit then ((ch.toNat : Int) - ('0'.toNat : Int))
  else if 'a' ≤ ch ∧ ch ≤ 'f' then ((ch.toNat : Int) - ('a'.toNat : Int) + 10)
  else if 'A' ≤ ch ∧ ch ≤ 'F' then ((ch.toNat : Int) - ('A'.toNat : Int) + 10)
  else 0

/-- Embeds `int(s, 16)` on a digit list. -/
def hexVal (cs : List Char) : Int :=
  cs.foldl (fun acc ch => acc * 16 + hexDigit ch) 0

/-- Embeds `hex_to_rgb` (lines 152–157): strip leading `#`, split into
`len // 3`-character groups, parse each as hex.  A string shorter than 3
characters makes the stride 0, a `ValueError` in the source, modelled as
`[]`. -/
def hexToRgb (s : String) : List Int :=
  let t := s.data.dropWhile (fun ch => ch = '#')
  let lv := t.length
  let step := lv / 3
  if step = 0 then []
  else (List.range ((lv + step - 1) / step)).map
    (fun j => hexVal ((t.drop (j * step)).take step))

/-- The fill color (a Tk color string) that `draw_frame_on_canvas`
(lines 372–388) chooses for foreground cell `(row, col)`; `none` when the
cell has no entry and no rectangle is drawn.  `if sf_color:` is Python
truthiness, so an empty override string is ignored. -/
def canvasCellColor (frame : Frame) (row col : Int) : Option String :=
  match getv frame.boxes (row, col) with
  | none => none
  | some val =>
    let color := if ¬(val = 0) then "black" else "white"
    let color := if frame.default_color.getD 0 = 1 then
        (if val = 0 then "white" else "black") else color
    let color := match frame.stick_figure_color with
      | some s => if s = "" then color else s
      | none => color
    some color

/-- The fill color (an RGB triple, as a list) that `draw_frame_to_image`
(lines 420–443) chooses for foreground cell `(row, col)`. -/
def imageCellColor (frame : Frame) (row col : Int) : Option (List Int) :=
  match getv frame.boxes (row, col) with
  | none => none
  | some val =>
    let color := if ¬(val = 0) then [0, 0, 0] else [255, 255, 255]
    let color := if frame.default_color.getD 0 = 1 then
        (if val = 0 then [255, 255, 255] else [0, 0, 0]) else color
    let draw_color := match frame.stick_figure_color with
      | some s =>
          if s = "" then color
          else if strStartsWithHash s then hexToRgb s
          else if strLower s = "black" then [0, 0, 0] else [255, 255, 255]
      | none => color
    some draw_color

/-- The fill color that the background pass of `draw_frame_to_image`
(lines 403–418) draws at cell `(row, col)` (every viewport cell gets a
rectangle in this pass). -/
def imageBgColor (bgBoxes : Boxes) (bgDefault : Int) (row col : Int) : List Int :=
  match getv bgBoxes (row, col) with
  | some val =>
      let color := if ¬(val = 0) then [0, 0, 0] else [255, 255, 255]
      if bgDefault = 1 then (if val = 0 then [255, 255, 255] else [0, 0, 0])
      else color
  | none => if bgDefault = 0 then [255, 255, 255] else [0, 0, 0]

/-- Embeds `[a, a+1, ..., a+n-1]` (the Int version of `range(a, a+n)`). -/
def intRange (a n : Int) : List Int :=
  (List.range n.toNat).map (fun i => a + (i : Int))

/-- The `(row, col)` pairs visited by the nested
`for row in range(y0, y0+h): for col in range(x0, x0+w):` loops. -/
def cellsIn (vp : Int × Int × Int × Int) : List Coord :=
  let x0 := vp.1
  let y0 := vp.2.1
  let w := vp.2.2.1
  let h := vp.2.2.2
  (intRange y0 h).flatMap (fun r => (intRange x0 w).map (fun c => (r, c)))

/-- The deterministic content of one rendered PIL image: its pixel size
and the ordered background and foreground rectangle draws, each recorded
as `(row, col, fill color)`. -/
structure RenderedImage where
  width : Int
  height : Int
  bgOps : List (Int × Int × List Int)
  fgOps : List (Int × Int × List Int)
  deriving DecidableEq

/-- Embeds `draw_frame_to_image(self, frame, background, cell_size, viewport)`
(lines 390–443).  `cell_size or self.cell_size` makes 0/None fall back to
the state's value; a `None` viewport is recomputed per frame; a missing
background or one without a `"boxes"` key draws no background pass. -/
def drawFrameToImage (st : AnimState) (frame : Frame) (bg : Option Background)
    (cellSize : Option Int) (viewport : Option (Int × Int × Int × Int)) :
    RenderedImage :=
  let cs := orTruthyInt cellSize st.cell_size
  let vp := match viewport with
    | some v => v
    | none => computeViewport st frame none none none none
  let w := vp.2.2.1
  let h := vp.2.2.2
  { width := w * cs
    height := h * cs
    bgOps := match bg with
      | some b =>
          match b.boxes with
          | some bgBoxes =>
              (cellsIn vp).map (fun p =>
                (p.1, p.2, imageBgColor bgBoxes (b.default_color.getD 0) p.1 p.2))
          | none => []
      | none => []
    fgOps := (cellsIn vp).filterMap (fun p =>
      (imageCellColor frame p.1 p.2).map (fun color => (p.1, p.2, color))) }

/-! ## Export to video (`export_to_video`) -/

/-- Embeds `max(1, int((fps * frame_duration) / 1000))` (line 463): the product
is divided exactly and `int()` truncates toward zero. -/
def exportRepeats (fps duration : Int) : Int :=
  max 1 (Int.tdiv (fps * duration) 1000)

/-- The frame loop of `export_to_video` (lines 458–465): walks the frame
list with its index, appending each rendered image `exportRepeats` times;
`self.timings[i]` raises `IndexError` (modelled as `none`) when the
timings list is shorter than the frames list. -/
def exportFrames (st : AnimState) (fps : Int)
    (gvp : Option (Int × Int × Int × Int)) :
    List Frame → Nat → List RenderedImage → Option (List RenderedImage)
  | [], _, images => some images
  | frame :: rest, i, images =>
    match st.timings[i]? with
    | none => none
    | some t =>
        let bg := (st.backgrounds[i]?).getD none
        let vp := match gvp with
          | some v => v
          | none => computeViewport st frame none none none none
        let img := drawFrameToImage st frame bg (some st.cell_size) (some vp)
        exportFrames st fps gvp rest (i + 1)
          (images ++ List.replicate (exportRepeats fps t).toNat img)

/-- Embeds `export_to_video(self, filename, fps)` (lines 448–468), up to the
handoff of the ordered image stream to the external encoder: returns the
stream itself. -/
def exportToVideo (st : AnimState) (fps : Int) : Option (List RenderedImage) :=
  let gvp := if st.lock_viewport
    then some (computeGlobalViewport st (some st.frames) none none none)
    else none
  exportFrames st fps gvp st.frames 0 []

/-! ## Persistence (`save_animation`, `load_animation`,
`add_frame_from_json`) -/

/-- An animation JSON document; `none` in an optional field models a key
absent from the JSON object (`frames` and `timings` are read with
`data[...]`, which raises when absent, so they are required). -/
structure AnimDoc where
  frames : List Frame
  timings : List Int
  backgrounds : Option (List (Option Background))
  frame_names : Option (List String)
  background_names : Option (List String)
  viewport_mode : Option String
  viewport_padding : Option Int
  viewport_min_w : Option Int
  viewport_min_h : Option Int
  lock_viewport : Option Bool
  deriving DecidableEq

/-- Embeds `save_animation` (lines 114–129): the document written to disk. -/
def saveAnimation (st : AnimState) : AnimDoc :=
  { frames := st.frames
    timings := st.timings
    backgrounds := some st.backgrounds
    frame_names := some st.frame_names
    background_names := some st.background_names
    viewport_mode := some st.viewport_mode
    viewport_padding := some st.viewport_padding
    viewport_min_w := some st.viewport_min_w
    viewport_min_h := some st.viewport_min_h
    lock_viewport := some st.lock_viewport }

/-- The default label list `[f"Frame_{i+1}.json" for i in range(n)]`. -/
def defaultFrameNames (n : Nat) : List String :=
  (List.range n).map (fun i => "Frame_" ++ toString (i + 1) ++ ".json")

/-- Embeds `load_animation` (lines 131–150): absent optional keys get whole
default arrays; grid metadata is refreshed from the first frame. -/
def loadAnimation (st : AnimState) (d : AnimDoc) : AnimState :=
  let st :=
    { st with
      frames := d.frames
      timings := d.timings
      backgrounds := d.backgrounds.getD (List.replicate d.frames.length none)
      frame_names := d.frame_names.getD (defaultFrameNames d.frames.length)
      background_names := d.background_names.getD
        (List.replicate d.frames.length "")
      viewport_mode := d.viewport_mode.getD st.viewport_mode
      viewport_padding := d.viewport_padding.getD st.viewport_padding
      viewport_min_w := d.viewport_min_w.getD st.viewport_min_w
      viewport_min_h := d.viewport_min_h.getD st.viewport_min_h
      lock_viewport := d.lock_viewport.getD st.lock_viewport }
  match st.frames.head? with
  | some f =>
      { st with
        grid_width := match f.grid_width with
          | some w => some w
          | none => st.grid_width
        grid_height := match f.grid_height with
          | some h => some h
          | none => st.grid_height
        default_color := f.default_color.getD st.default_color }
  | none => st

/-- Embeds `add_frame_from_json(self, stick_figure_json, duration,
background_json)` (lines 66–84).  File reads are modelled by passing the
path together with its parsed content; `if background_json:` is Python
truthiness, so an empty path string behaves like `None`. -/
def addFrameFromJson (st : AnimState) (path : String) (frameData : Frame)
    (duration : Int) (backgroundJson : Option (String × Background)) :
    AnimState :=
  let st :=
    { st with
      frames := st.frames ++ [frameData]
      frame_names := st.frame_names ++ [(path.splitOn "/").getLastD ""]
      timings := st.timings ++ [duration] }
  let st := match backgroundJson with
    | some (bgPath, bgData) =>
        if bgPath = "" then
          { st with backgrounds := st.backgrounds ++ [none]
                    background_names := st.background_names ++ [""] }
        else
          { st with backgrounds := st.backgrounds ++ [some bgData]
                    background_names :=
                      st.background_names ++ [(bgPath.splitOn "/").getLastD ""] }
    | none =>
        { st with backgrounds := st.backgrounds ++ [none]
                  background_names := st.background_names ++ [""] }
  { st with
    grid_width := match frameData.grid_width with
      | some w => some w
      | none => st.grid_width
    grid_height := match frameData.grid_height with
      | some h => some h
      | none => st.grid_height
    default_color := frameData.default_color.getD st.default_color }

/-! ## Selection moves (`AnimationGUI.move_selection`,
`AnimationGUI.translate_object`) -/

/-- Membership of a coordinate in the rectangular selection
`sel_r0 <= r <= sel_r1 and sel_c0 <= c <= sel_c1`. -/
def inRect (r0 c0 r1 c1 : Int) (k : Coord) : Prop :=
  r0 ≤ k.1 ∧ k.1 ≤ r1 ∧ c0 ≤ k.2 ∧ k.2 ≤ c1

instance (r0 c0 r1 c1 : Int) (k : Coord) : Decidable (inRect r0 c0 r1 c1 k) := by
  unfold inRect; infer_instance

/-- The destination-bounds test: the negation of the skip condition
`nr < 0 or nc < 0 or nr >= grid_h or nc >= grid_w`. -/
def inGrid (gw gh : Int) (k : Coord) : Prop :=
  0 ≤ k.1 ∧ k.1 < gh ∧ 0 ≤ k.2 ∧ k.2 < gw

instance (gw gh : Int) (k : Coord) : Decidable (inGrid gw gh k) := by
  unfold inGrid; infer_instance

/-- The `new_boxes` construction loop of `move_selection`
(lines 155–165): for each collected key, look its value up in the
untouched `boxes`, shift it by `(dr, dc)`, and keep it only when the
destination is in bounds.  (A key absent from `boxes` cannot occur, since
the keys were collected from `boxes` itself.) -/
def buildNewBoxes (b : Boxes) (dr dc gw gh : Int) :
    List Coord → Boxes → Boxes
  | [], nb => nb
  | k :: rest, nb =>
    let nb' := match getv b k with
      | some v =>
          let nk : Coord := (k.1 + dr, k.2 + dc)
          if inGrid gw gh nk then insertBox nb nk v else nb
      | none => nb
    buildNewBoxes b dr dc gw gh rest nb'

/-- Embeds `move_selection(self, frame_index, sel_r0, sel_c0, sel_r1, sel_c1,
dr, dc)` (lines 130–176): collect the keys inside the selection, build
the shifted batch, remove all sources, then apply the batch.  Returns the
source's boolean together with the (possibly updated) state. -/
def moveSelection (st : AnimState) (frameIndex r0 c0 r1 c1 dr dc : Int) :
    Bool × AnimState :=
  if frameIndex < 0 ∨ frameIndex ≥ (st.frames.length : Int) then (false, st)
  else
    match st.frames[frameIndex.toNat]? with
    | none => (false, st)
    | some frame =>
      match frame.grid_width, frame.grid_height with
      | some gw, some gh =>
          let boxes := frame.boxes
          let keysToMove := (boxes.map (fun p => p.1)).filter
            (fun k => decide (inRect r0 c0 r1 c1 k))
          let newBoxes := buildNewBoxes boxes dr dc gw gh keysToMove []
          let boxes' := updateAll (eraseAll boxes keysToMove) newBoxes
          let frame' := { frame with boxes := boxes' }
          (true, { st with frames := st.frames.set frameIndex.toNat frame' })
      | _, _ => (false, st)

/-- The coordinate loop of `translate_object` (lines 194–205): pop each
painted source as it is visited, accumulating surviving destinations in
`new_boxes`; returns the final `(boxes, new_boxes)` pair. -/
def translateLoop (dr dc gw gh : Int) :
    List Coord → Boxes → Boxes → Boxes × Boxes
  | [], b, nb => (b, nb)
  | k :: rest, b, nb =>
    match getv b k with
    | none => translateLoop dr dc gw gh rest b nb
    | some v =>
        let b' := eraseBox b k
        let nk : Coord := (k.1 + dr, k.2 + dc)
        let nb' := if inGrid gw gh nk then insertBox nb nk v else nb
        translateLoop dr dc gw gh rest b' nb'

/-- Embeds `translate_object(self, frame_index, object_coords, dr, dc)`
(lines 178–210). -/
def translateObject (st : AnimState) (frameIndex : Int)
    (objectCoords : List Coord) (dr dc : Int) : Bool × AnimState :=
  if frameIndex < 0 ∨ frameIndex ≥ (st.frames.length : Int) then (false, st)
  else
    match st.frames[frameIndex.toNat]? with
    | none => (false, st)
    | some frame =>
      match frame.grid_width, frame.grid_height with
      | some gw, some gh =>
          let bn := translateLoop dr dc gw gh objectCoords frame.boxes []
          let boxes' := updateAll bn.1 bn.2
          let frame' := { frame with boxes := boxes' }
          (true, { st with frames := st.frames.set frameIndex.toNat frame' })
      | _, _ => (false, st)

/-! ## Interactive grid (`InteractiveGrid`) -/

/-- The grid state of `InteractiveGrid`: dimensions and the dense
row-major cell buffer. -/
structure IGrid where
  grid_width : Int
  grid_height : Int
  grid : List (List Int)
  deriving DecidableEq

/-- Embeds `check_cordinates(self, x, y)` (lines 49–50). -/
def checkCordinates (g : IGrid) (x y : Int) : Bool :=
  decide (0 ≤ x ∧ x < g.grid_width ∧ 0 ≤ y ∧ y < g.grid_height)

/-- Embeds `self.grid[y][x] = color` (only reached behind `check_cordinates`). -/
def setCell (g : IGrid) (x y color : Int) : IGrid :=
  { g with grid := g.grid.set y.toNat ((g.grid.getD y.toNat []).set x.toNat color) }

/-- Plot a point list, skipping out-of-bounds points (the
`if self.check_cordinates(px, py): self.grid[py][px] = color` body). -/
def plotPoints (g : IGrid) (pts : List Coord) (color : Int) : IGrid :=
  pts.foldl
    (fun g p => if checkCordinates g p.1 p.2 then setCell g p.1 p.2 color else g)
    g

/-- The `circle_points` list of one midpoint-circle iteration
(lines 94–103): the 8-way symmetric images of `(x, y)` about
`(cx, cy)`. -/
def circleStepPoints (cx cy x y : Int) : List Coord :=
  [(cx + x, cy + y), (cx + y, cy + x), (cx - y, cy + x), (cx - x, cy + y),
   (cx - x, cy - y), (cx - y, cy - x), (cx + y, cy - x), (cx + x, cy - y)]

/-- The `while x >= y` loop of `draw_circle` (lines 93–113), plotting each
iteration's 8 symmetric points (in-bounds only) and stepping the midpoint
decision variable `d`. -/
def drawCircleLoop (cx cy color : Int) (g : IGrid) (x y d : Int) : IGrid :=
  if x ≥ y then
    if d ≤ 0 then
      drawCircleLoop cx cy color (plotPoints g (circleStepPoints cx cy x y) color)
        x (y + 1) (d + 2 * (y + 1) + 1)
    else
      drawCircleLoop cx cy color (plotPoints g (circleStepPoints cx cy x y) color)
        (x - 1) (y + 1) (d + 2 * ((y + 1) - (x - 1)) + 1)
  else g
termination_by (x - y + 1).toNat
decreasing_by all_goals omega

/-- Embeds `draw_circle(self, cx, cy, radius, color)` (lines 87–113):
`radius < 1` raises `ValueError` before touching the grid; otherwise the
midpoint circle loop runs from `x=radius, y=0, d=1-radius`. -/
def drawCircle (g : IGrid) (cx cy radius color : Int) : Except String IGrid :=
  if radius < 1 then .error "Minimum radius is 1 (3 grid squares diameter)"
  else .ok (drawCircleLoop cx cy color g radius 0 (1 - radius))

/-! ## Specification-side vocabulary

Definitions below follow the wording of the specification/claims (for
refinement comparisons against the source-derived definitions above). -/

/-- The repeat count as the specification words it:
`max(1, round(fps * durationMs / 1000))`, with `round` the usual rounding
of the exact rational quotient. -/
def specRepeatCount (fps durationMs : Int) : Int :=
  max 1 (round (((fps * durationMs : Int) : ℚ) / 1000))

/-- The image stream the (amended) export claim describes: for each frame
`i` in order, the rendered image of frame `i` repeated
`exportRepeats fps timings[i]` times. -/
def exportStreamFrom (st : AnimState) (fps : Int)
    (gvp : Option (Int × Int × Int × Int)) :
    List Frame → Nat → List RenderedImage
  | [], _ => []
  | f :: rest, i =>
    let vp := match gvp with
      | some v => v
      | none => computeViewport st f none none none none
    List.replicate (exportRepeats fps ((st.timings[i]?).getD 0)).toNat
        (drawFrameToImage st f ((st.backgrounds[i]?).getD none)
          (some st.cell_size) (some vp))
      ++ exportStreamFrom st fps gvp rest (i + 1)

/-- The full expected export stream (same viewport policy as
`exportToVideo`). -/
def exportStream (st : AnimState) (fps : Int) : List RenderedImage :=
  let gvp := if st.lock_viewport
    then some (computeGlobalViewport st (some st.frames) none none none)
    else none
  exportStreamFrom st fps gvp st.frames 0

/-- The batch-move semantics the claims describe for `move_selection`:
all sources inside the selection are removed first, then every surviving
shifted destination is written.  The value of the final cell map at
`k`. -/
def moveResultSpec (b : Boxes) (r0 c0 r1 c1 dr dc gw gh : Int) (k : Coord) :
    Option Int :=
  let src : Coord := (k.1 - dr, k.2 - dc)
  if inRect r0 c0 r1 c1 src ∧ inGrid gw gh k ∧ (getv b src).isSome then
    getv b src
  else if inRect r0 c0 r1 c1 k then none
  else getv b k

/-- The batch-move semantics for `translate_object`: same, with the
selection rectangle replaced by an explicit coordinate set. -/
def transResultSpec (b : Boxes) (coords : List Coord) (dr dc gw gh : Int)
    (k : Coord) : Option Int :=
  let src : Coord := (k.1 - dr, k.2 - dc)
  if src ∈ coords ∧ (getv b src).isSome ∧ inGrid gw gh k then getv b src
  else if k ∈ coords then none
  else getv b k

/-- The point set of the midpoint circle loop, iteration by iteration
(the same loop as `drawCircleLoop`, emitting the 8-way symmetric points
instead of plotting them). -/
def circlePoints (cx cy : Int) (x y d : Int) : List Coord :=
  if x ≥ y then
    circleStepPoints cx cy x y ++
      (if d ≤ 0 then circlePoints cx cy x (y + 1) (d + 2 * (y + 1) + 1)
       else circlePoints cx cy (x - 1) (y + 1) (d + 2 * ((y + 1) - (x - 1)) + 1))
  else []
termination_by (x - y + 1).toNat
decreasing_by all_goals omega

/-- The RGB value the image compositor derives from a style-override
string (the `sf_color` branch of lines 435–439). -/
def overrideRGB (s : String) : List Int :=
  if strStartsWithHash s then hexToRgb s
  else if strLower s = "black" then [0, 0, 0] else [255, 255, 255]

/-! ## Concrete example data (used by witnesses and counterexamples) -/

/-- Componentwise bounding-box containment (proof vocabulary). -/
def containsBB (g bb : Int × Int × Int × Int) : Prop :=
  g.1 ≤ bb.1 ∧ bb.2.1 ≤ g.2.1 ∧ g.2.2.1 ≤ bb.2.2.1 ∧ bb.2.2.2 ≤ g.2.2.2

/-- Two frames with different explicit grid dimensions: content at
`(50, 50)` on a 100×100 grid, and content at `(1, 1)` on a 20×20 grid. -/
def cexFrameA : Frame :=
  { boxes := [((50, 50), 1)], grid_width := some 100, grid_height := some 100
    default_color := some 0, stick_figure_color := none }

def cexFrameB : Frame :=
  { boxes := [((1, 1), 1)], grid_width := some 20, grid_height := some 20
    default_color := some 0, stick_figure_color := none }

/-- Two 20×20 frames sharing grid dimensions, with content at `(5, 5)`
and `(10, 12)`. -/
def wFrameA : Frame :=
  { boxes := [((5, 5), 1)], grid_width := some 20, grid_height := some 20
    default_color := some 0, stick_figure_color := none }

def wFrameB : Frame :=
  { boxes := [((10, 12), 1)], grid_width := some 20, grid_height := some 20
    default_color := some 0, stick_figure_color := none }

/-- A 20×20 frame with content at `(5, 5)` and `(8, 9)`. -/
def c3Frame : Frame :=
  { boxes := [((5, 5), 1), ((8, 9), 1)], grid_width := some 20
    grid_height := some 20, default_color := some 0
    stick_figure_color := none }

/-- An all-default 5×5 interactive grid. -/
def exGrid5 : IGrid :=
  { grid_width := 5, grid_height := 5
    grid := List.replicate 5 (List.replicate 5 0) }

/-- A 10×10 frame with the single painted cell `(3, 4)`. -/
def exMoveFrame : Frame :=
  { boxes := [((3, 4), 1)], grid_width := some 10, grid_height := some 10
    default_color := some 0, stick_figure_color := none }

def exMoveState : AnimState :=
  { initState with
    frames := [exMoveFrame], timings := [200],
    backgrounds := [none], frame_names := ["f.json"],
    background_names := [""] }

/-- A 10×10 frame where `(3, 4)` is painted and the future destination
`(4, 4)` is already painted with a different value. -/
def exMove2Frame : Frame :=
  { boxes := [((3, 4), 1), ((4, 4), 5)], grid_width := some 10
    grid_height := some 10, default_color := some 0
    stick_figure_color := none }

def exMove2State : AnimState :=
  { initState with
    frames := [exMove2Frame], timings := [200],
    backgrounds := [none], frame_names := ["f.json"],
    background_names := [""] }

/-- Two tiny 3×3 frames for the export examples. -/
def exExpFrame1 : Frame :=
  { boxes := [((0, 0), 1)], grid_width := some 3, grid_height := some 3
    default_color := some 0, stick_figure_color := none }

def exExpFrame2 : Frame :=
  { boxes := [((1, 1), 1)], grid_width := some 3, grid_height := some 3
    default_color := some 0, stick_figure_color := none }

/-- A loaded 2-frame animation with durations `[200, 400]` (per-frame
`'full'` viewports, viewport not locked). -/
def exExportState : AnimState :=
  { initState with
    frames := [exExpFrame1, exExpFrame2],
    timings := [200, 400], backgrounds := [none, none],
    frame_names := ["a.json", "b.json"], background_names := ["", ""],
    grid_width := some 3, grid_height := some 3, lock_viewport := false }

/-- A loaded 1-frame animation with duration `300` ms. -/
def cexExportState : AnimState :=
  { exExportState with
    frames := [exExpFrame1], timings := [300],
    backgrounds := [none], frame_names := ["a.json"],
    background_names := [""] }

/-- An animation document whose `timings`, `backgrounds` and
`frame_names` arrays are shorter than `frames`. -/
def cexShortDoc : AnimDoc :=
  { frames := [exExpFrame1, exExpFrame1], timings := [100]
    backgrounds := some [], frame_names := some ["a"]
    background_names := some [], viewport_mode := none
    viewport_padding := none, viewport_min_w := none, viewport_min_h := none
    lock_viewport := none }

/-- An animation document with two frames and every optional key
absent. -/
def exBareDoc : AnimDoc :=
  { frames := [exExpFrame1, exExpFrame1], timings := [100, 150]
    backgrounds := none, frame_names := none, background_names := none
    viewport_mode := none, viewport_padding := none, viewport_min_w := none
    viewport_min_h := none, lock_viewport := none }

/-- A frame whose only entry resolves to the background color (value 0 on
default color 0) but which carries a style override. -/
def cexStyleFrame : Frame :=
  { boxes := [((0, 0), 0)], grid_width := some 3, grid_height := some 3
    default_color := some 0, stick_figure_color := some "#ff0000" }

/-- The same frame without the override. -/
def cexStyleFramePlain : Frame :=
  { boxes := [((0, 0), 0)], grid_width := some 3, grid_height := some 3
    default_color := some 0, stick_figure_color := none }

/-! ## Dictionary lemmas -/

theorem getv_cons (p : Coord × Int) (rest : Boxes) (k : Coord) :
    getv (p :: rest) k =
      match getv rest k with
      | some v => some v
      | none => if p.1 = k then some p.2 else none := rfl

theorem hasKey_false_getv (b : Boxes) (k : Coord) (h : hasKey b k = false) :
    getv b k = none := by
  induction b with
  | nil => rfl
  | cons p rest ih =>
      simp only [hasKey, List.any_cons, Bool.or_eq_false_iff] at h
      rw [getv_cons, ih h.2]
      simp only [decide_eq_false_iff_not] at h
      simp [h.1]

theorem getv_isSome_iff_hasKey (b : Boxes) (k : Coord) :
    (getv b k).isSome = hasKey b k := by
  induction b with
  | nil => rfl
  | cons p rest ih =>
      rw [getv_cons]
      simp only [hasKey, List.any_cons] at ih ⊢
      rcases hr : getv rest k with _ | v
      · rw [hr] at ih
        simp only [Option.isSome_none] at ih
        by_cases hp : p.1 = k <;> simp [hp, ← ih]
      · rw [hr] at ih
        simp only [Option.isSome_some] at ih
        simp [← ih]

theorem hasKey_iff_mem_keys (b : Boxes) (k : Coord) :
    hasKey b k = true ↔ k ∈ b.map (fun p => p.1) := by
  simp only [hasKey, List.any_eq_true, List.mem_map, decide_eq_true_eq]

theorem map_replace_of_not_hasKey (b : Boxes) (k : Coord) (v : Int)
    (h : hasKey b k = false) :
    b.map (fun p => if p.1 = k then (k, v) else p) = b := by
  induction b with
  | nil => rfl
  | cons p rest ih =>
      simp only [hasKey, List.any_cons, Bool.or_eq_false_iff,
        decide_eq_false_iff_not] at h
      simp only [List.map_cons, if_neg h.1]
      rw [ih]
      simp only [hasKey, h.2]

theorem getv_single (k : Coord) (v : Int) (k' : Coord) :
    getv [(k, v)] k' = if k = k' then some v else none := rfl

theorem getv_append_single (b : Boxes) (k : Coord) (v : Int) (k' : Coord) :
    getv (b ++ [(k, v)]) k' = if k' = k then some v else getv b k' := by
  induction b with
  | nil =>
      rw [List.nil_append, getv_single]
      by_cases h1 : k' = k
      · simp [h1]
      · rw [if_neg (fun he => h1 he.symm), if_neg h1]
        rfl
  | cons p rest ih =>
      rw [List.cons_append, getv_cons, ih, getv_cons]
      by_cases h1 : k' = k
      · simp [h1]
      · rw [if_neg h1, if_neg h1]

theorem getv_map_replace (b : Boxes) (k : Coord) (v : Int) (k' : Coord) :
    getv (b.map (fun p => if p.1 = k then (k, v) else p)) k' =
      if k' = k then (if hasKey b k then some v else none)
      else getv b k' := by
  induction b with
  | nil =>
      simp only [List.map_nil, getv, hasKey, List.any_nil]
      by_cases h1 : k' = k <;> simp [h1]
  | cons p rest ih =>
      rw [List.map_cons, getv_cons, ih, getv_cons]
      simp only [hasKey, List.any_cons]
      by_cases h1 : k' = k
      · rw [if_pos h1, if_pos h1]
        by_cases hr : hasKey rest k
        · simp only [hasKey] at hr
          simp [hr]
        · simp only [hasKey, Bool.not_eq_true] at hr
          simp only [hr, Bool.or_false]
          by_cases hp : p.1 = k
          · subst h1; simp [hp]
          · subst h1; simp [hp]
      · rw [if_neg h1, if_neg h1]
        rcases getv rest k' with _ | w
        · by_cases hp : p.1 = k
          · rw [if_pos hp]
            have hne : ¬ ((k, v).1 = k') := fun he => h1 (by simpa using he.symm)
            rw [if_neg hne, if_neg (by rw [hp]; exact fun he => h1 he.symm)]
          · rw [if_neg hp]
        · rfl

theorem getv_insertBox (b : Boxes) (k : Coord) (v : Int) (k' : Coord) :
    getv (insertBox b k v) k' = if k' = k then some v else getv b k' := by
  rw [insertBox]
  cases hk : hasKey b k
  · simp only [Bool.false_eq_true, if_false]
    exact getv_append_single b k v k'
  · rw [if_pos rfl, getv_map_replace, hk]
    by_cases h1 : k' = k <;> simp [h1]

theorem getv_eraseBox (b : Boxes) (k k' : Coord) :
    getv (eraseBox b k) k' = if k' = k then none else getv b k' := by
  induction b with
  | nil => simp [eraseBox, getv]
  | cons p rest ih =>
      rw [eraseBox, List.filter_cons]
      by_cases hp : p.1 = k
      · rw [if_neg (by simp [hp])]
        rw [eraseBox] at ih
        rw [ih, getv_cons]
        by_cases h1 : k' = k
        · simp [h1]
        · rw [if_neg h1, if_neg h1]
          rcases getv rest k' with _ | w
          · rw [if_neg (by rw [hp]; exact fun he => h1 he.symm)]
          · rfl
      · rw [if_pos (by simp [hp])]
        rw [getv_cons, getv_cons]
        rw [eraseBox] at ih
        rw [ih]
        by_cases h1 : k' = k
        · subst h1
          simp [hp]
        · rw [if_neg h1, if_neg h1]

theorem getv_eraseAll (ks : List Coord) (b : Boxes) (k : Coord) :
    getv (eraseAll b ks) k = if k ∈ ks then none else getv b k := by
  induction ks generalizing b with
  | nil => simp [eraseAll]
  | cons k0 rest ih =>
      rw [eraseAll, List.foldl_cons]
      rw [show List.foldl eraseBox (eraseBox b k0) rest = eraseAll (eraseBox b k0) rest from rfl]
      rw [ih, getv_eraseBox]
      by_cases h1 : k ∈ rest
      · simp [h1]
      · by_cases h2 : k = k0
        · simp [h1, h2]
        · simp [h1, h2]

theorem getv_updateAll (nb : Boxes) (b : Boxes) (k : Coord) :
    getv (updateAll b nb) k =
      match getv nb k with
      | some v => some v
      | none => getv b k := by
  induction nb generalizing b with
  | nil => simp [updateAll, getv]
  | cons p rest ih =>
      rw [updateAll, List.foldl_cons]
      rw [show List.foldl (fun acc q => insertBox acc q.1 q.2)
        (insertBox b p.1 p.2) rest = updateAll (insertBox b p.1 p.2) rest from rfl]
      rw [ih, getv_cons, getv_insertBox]
      rcases getv rest k with _ | w
      · by_cases h1 : p.1 = k
        · simp [h1]
        · rw [if_neg h1, if_neg (fun he => h1 he.symm)]
      · rfl

theorem getv_eq_none_of_not_mem (b : Boxes) (k : Coord)
    (h : k ∉ b.map (fun p => p.1)) : getv b k = none := by
  have hk : hasKey b k = false := by
    rcases hh : hasKey b k
    · rfl
    · exact absurd ((hasKey_iff_mem_keys b k).mp hh) h
  exact hasKey_false_getv b k hk

theorem getv_isSome_iff_mem (b : Boxes) (k : Coord) :
    (getv b k).isSome ↔ k ∈ b.map (fun p => p.1) := by
  rw [← hasKey_iff_mem_keys, ← getv_isSome_iff_hasKey]

/-- Shift-source coordinate of a destination `k`. -/
theorem coord_shift_iff (s k : Coord) (dr dc : Int) :
    (k.1 - dr, k.2 - dc) = s ↔ k = (s.1 + dr, s.2 + dc) := by
  obtain ⟨k1, k2⟩ := k
  obtain ⟨s1, s2⟩ := s
  simp only [Prod.mk.injEq]
  omega

theorem getv_buildNewBoxes (b : Boxes) (dr dc gw gh : Int) :
    ∀ (ks : List Coord), ks.Nodup → ∀ (nb : Boxes) (k : Coord),
    getv (buildNewBoxes b dr dc gw gh ks nb) k =
      if (k.1 - dr, k.2 - dc) ∈ ks ∧ inGrid gw gh k ∧
          (getv b (k.1 - dr, k.2 - dc)).isSome then
        getv b (k.1 - dr, k.2 - dc)
      else getv nb k := by
  intro ks
  induction ks with
  | nil =>
      intro _ nb k
      simp [buildNewBoxes]
  | cons s rest ih =>
      intro hnd nb k
      obtain ⟨hs, hrest⟩ := List.nodup_cons.mp hnd
      by_cases hks : (k.1 - dr, k.2 - dc) = s
      · have hknk : k = ((s.1 + dr, s.2 + dc) : Coord) :=
          (coord_shift_iff s k dr dc).mp hks
        rcases hv : getv b s with _ | v
        · simp only [buildNewBoxes, hv]
          rw [ih hrest nb k]
          simp only [hks, hv]
          simp [hs]
        · by_cases hg : inGrid gw gh ((s.1 + dr, s.2 + dc) : Coord)
          · simp only [buildNewBoxes, hv, if_pos hg]
            rw [ih hrest _ k, getv_insertBox]
            simp only [hks]
            simp only [hv, hknk]
            simp [hs, hg]
          · simp only [buildNewBoxes, hv, if_neg hg]
            rw [ih hrest nb k]
            simp only [hks]
            simp only [hv, hknk]
            simp [hs, hg]
      · have hknk : ¬ (k = ((s.1 + dr, s.2 + dc) : Coord)) :=
          fun he => hks ((coord_shift_iff s k dr dc).mpr he)
        rcases hv : getv b s with _ | v
        · simp only [buildNewBoxes, hv]
          rw [ih hrest nb k]
          simp [List.mem_cons, hks]
        · by_cases hg : inGrid gw gh ((s.1 + dr, s.2 + dc) : Coord)
          · simp only [buildNewBoxes, hv, if_pos hg]
            rw [ih hrest _ k, getv_insertBox, if_neg hknk]
            simp [List.mem_cons, hks]
          · simp only [buildNewBoxes, hv, if_neg hg]
            rw [ih hrest nb k]
            simp [List.mem_cons, hks]

theorem translateLoop_fst (dr dc gw gh : Int) :
    ∀ (ks : List Coord) (b nb : Boxes) (k : Coord),
    getv (translateLoop dr dc gw gh ks b nb).1 k =
      if k ∈ ks then none else getv b k := by
  intro ks
  induction ks with
  | nil =>
      intro b nb k
      simp [translateLoop]
  | cons s rest ih =>
      intro b nb k
      rcases hv : getv b s with _ | v
      · simp only [translateLoop, hv]
        rw [ih b nb k]
        by_cases h2 : k = s
        · subst h2
          simp [hv]
        · simp [List.mem_cons, h2]
      · simp only [translateLoop, hv]
        rw [ih _ _ k, getv_eraseBox]
        by_cases h2 : k = s
        · subst h2
          by_cases h1 : k ∈ rest <;> simp [h1]
        · by_cases h1 : k ∈ rest <;> simp [h1, h2]

theorem translateLoop_snd (dr dc gw gh : Int) :
    ∀ (ks : List Coord), ks.Nodup → ∀ (b nb : Boxes) (k : Coord),
    getv (translateLoop dr dc gw gh ks b nb).2 k =
      if (k.1 - dr, k.2 - dc) ∈ ks ∧ (getv b (k.1 - dr, k.2 - dc)).isSome ∧
          inGrid gw gh k then
        getv b (k.1 - dr, k.2 - dc)
      else getv nb k := by
  intro ks
  induction ks with
  | nil =>
      intro _ b nb k
      simp [translateLoop]
  | cons s rest ih =>
      intro hnd b nb k
      obtain ⟨hs, hrest⟩ := List.nodup_cons.mp hnd
      by_cases hks : (k.1 - dr, k.2 - dc) = s
      · have hknk : k = ((s.1 + dr, s.2 + dc) : Coord) :=
          (coord_shift_iff s k dr dc).mp hks
        rcases hv : getv b s with _ | v
        · simp only [translateLoop, hv]
          rw [ih hrest b nb k]
          simp only [hks, hv]
          simp [hs]
        · by_cases hg : inGrid gw gh ((s.1 + dr, s.2 + dc) : Coord)
          · simp only [translateLoop, hv, if_pos hg]
            rw [ih hrest _ _ k, getv_insertBox]
            simp only [hks, getv_eraseBox]
            simp only [hv, hknk]
            simp [hs, hg]
          · simp only [translateLoop, hv, if_neg hg]
            rw [ih hrest _ nb k]
            simp only [hks, getv_eraseBox]
            simp only [hv, hknk]
            simp [hs, hg]
      · have hknk : ¬ (k = ((s.1 + dr, s.2 + dc) : Coord)) :=
          fun he => hks ((coord_shift_iff s k dr dc).mpr he)
        have herase : getv (eraseBox b s) (k.1 - dr, k.2 - dc) =
            getv b (k.1 - dr, k.2 - dc) := by
          rw [getv_eraseBox, if_neg hks]
        rcases hv : getv b s with _ | v
        · simp only [translateLoop, hv]
          rw [ih hrest b nb k]
          simp [List.mem_cons, hks]
        · by_cases hg : inGrid gw gh ((s.1 + dr, s.2 + dc) : Coord)
          · simp only [translateLoop, hv, if_pos hg]
            rw [ih hrest _ _ k, getv_insertBox, if_neg hknk]
            simp only [herase]
            simp [List.mem_cons, hks]
          · simp only [translateLoop, hv, if_neg hg]
            rw [ih hrest _ nb k]
            simp only [herase]
            simp [List.mem_cons, hks]

/-- The collected `keys_to_move` are exactly the painted coordinates
inside the selection. -/
theorem mem_keysToMove (b : Boxes) (r0 c0 r1 c1 : Int) (k : Coord) :
    (k ∈ (b.map (fun p => p.1)).filter (fun k => decide (inRect r0 c0 r1 c1 k)))
      ↔ ((getv b k).isSome ∧ inRect r0 c0 r1 c1 k) := by
  rw [List.mem_filter, decide_eq_true_eq, getv_isSome_iff_mem]

/-- Characterization of `move_selection` on a valid frame index with grid
metadata: it succeeds and the stored frame's cell map realizes
`moveResultSpec`. -/
theorem moveSelection_spec (st : AnimState) (fi r0 c0 r1 c1 dr dc : Int)
    (frame : Frame) (gw gh : Int)
    (hge : 0 ≤ fi) (hlt : fi < (st.frames.length : Int))
    (hf : st.frames[fi.toNat]? = some frame)
    (hw : frame.grid_width = some gw) (hh : frame.grid_height = some gh)
    (hnd : (frame.boxes.map (fun p => p.1)).Nodup) :
    (moveSelection st fi r0 c0 r1 c1 dr dc).1 = true ∧
    ∃ frame',
      ((moveSelection st fi r0 c0 r1 c1 dr dc).2.frames[fi.toNat]? = some frame' ∧
       ∀ k, getv frame'.boxes k =
         moveResultSpec frame.boxes r0 c0 r1 c1 dr dc gw gh k) := by
  have hcond0 : ¬ (fi < 0 ∨ fi ≥ (st.frames.length : Int)) := by omega
  have hidx : fi.toNat < st.frames.length := by omega
  simp only [moveSelection, if_neg hcond0, hf, hw, hh]
  refine ⟨trivial, ⟨_, List.getElem?_set_self hidx, ?_⟩⟩
  intro k
  have hndk : ((frame.boxes.map (fun p => p.1)).filter
      (fun k => decide (inRect r0 c0 r1 c1 k))).Nodup := hnd.filter _
  rw [getv_updateAll, getv_buildNewBoxes frame.boxes dr dc gw gh _ hndk [] k,
    getv_eraseAll]
  simp only [getv]
  rw [moveResultSpec]
  by_cases hA : inRect r0 c0 r1 c1 ((k.1 - dr, k.2 - dc) : Coord) ∧
      inGrid gw gh k ∧ (getv frame.boxes (k.1 - dr, k.2 - dc)).isSome
  · have hmem : ((k.1 - dr, k.2 - dc) : Coord) ∈
        (frame.boxes.map (fun p => p.1)).filter
          (fun k => decide (inRect r0 c0 r1 c1 k)) :=
      (mem_keysToMove _ _ _ _ _ _).mpr ⟨hA.2.2, hA.1⟩
    obtain ⟨v, hv⟩ := Option.isSome_iff_exists.mp hA.2.2
    rw [if_pos ⟨hmem, hA.2.1, hA.2.2⟩, if_pos hA, hv]
  · have hnotA : ¬ (((k.1 - dr, k.2 - dc) : Coord) ∈
        (frame.boxes.map (fun p => p.1)).filter
          (fun k => decide (inRect r0 c0 r1 c1 k)) ∧
        inGrid gw gh k ∧ (getv frame.boxes (k.1 - dr, k.2 - dc)).isSome) := by
      intro ⟨hm, hg, hsm⟩
      exact hA ⟨((mem_keysToMove _ _ _ _ _ _).mp hm).2, hg, hsm⟩
    rw [if_neg hnotA, if_neg hA]
    by_cases hm : k ∈ (frame.boxes.map (fun p => p.1)).filter
        (fun k => decide (inRect r0 c0 r1 c1 k))
    · obtain ⟨hsm, hr⟩ := (mem_keysToMove _ _ _ _ _ _).mp hm
      rw [if_pos hm, if_pos hr]
    · rw [if_neg hm]
      by_cases hr : inRect r0 c0 r1 c1 k
      · have hnone : getv frame.boxes k = none := by
          rcases ho : getv frame.boxes k with _ | w
          · rfl
          · exact absurd ((mem_keysToMove _ _ _ _ _ _).mpr
              ⟨by rw [ho]; rfl, hr⟩) hm
        rw [if_pos hr, hnone]
      · rw [if_neg hr]

/-- Characterization of `translate_object` on a valid frame index with
grid metadata and a duplicate-free coordinate set: it succeeds and the
stored frame's cell map realizes `transResultSpec`. -/
theorem translateObject_spec (st : AnimState) (fi : Int)
    (coords : List Coord) (dr dc : Int) (frame : Frame) (gw gh : Int)
    (hge : 0 ≤ fi) (hlt : fi < (st.frames.length : Int))
    (hf : st.frames[fi.toNat]? = some frame)
    (hw : frame.grid_width = some gw) (hh : frame.grid_height = some gh)
    (hnd : coords.Nodup) :
    (translateObject st fi coords dr dc).1 = true ∧
    ∃ frame',
      ((translateObject st fi coords dr dc).2.frames[fi.toNat]? = some frame' ∧
       ∀ k, getv frame'.boxes k =
         transResultSpec frame.boxes coords dr dc gw gh k) := by
  have hcond0 : ¬ (fi < 0 ∨ fi ≥ (st.frames.length : Int)) := by omega
  have hidx : fi.toNat < st.frames.length := by omega
  simp only [translateObject, if_neg hcond0, hf, hw, hh]
  refine ⟨trivial, ⟨_, List.getElem?_set_self hidx, ?_⟩⟩
  intro k
  rw [getv_updateAll, translateLoop_snd dr dc gw gh coords hnd frame.boxes [] k,
    translateLoop_fst]
  rw [transResultSpec]
  by_cases hA : ((k.1 - dr, k.2 - dc) : Coord) ∈ coords ∧
      (getv frame.boxes (k.1 - dr, k.2 - dc)).isSome ∧ inGrid gw gh k
  · obtain ⟨v, hv⟩ := Option.isSome_iff_exists.mp hA.2.1
    rw [if_pos hA, if_pos hA, hv]
  · rw [if_neg hA, if_neg hA]
    simp only [getv]

/-! ## Viewport lemmas -/

/-- The origin/length pair returned by the shared axis step always lies
inside `[0, g]`. -/
theorem expandClampAxis_bounds (g pad minS lo hi : Int) :
    0 ≤ (expandClampAxis g pad minS lo hi).1 ∧
    (expandClampAxis g pad minS lo hi).1 +
      (expandClampAxis g pad minS lo hi).2 ≤ g := by
  unfold expandClampAxis
  dsimp only
  split_ifs <;> constructor <;> dsimp only <;> omega

/-- With nonnegative padding, the axis step's interval contains every
in-bounds coordinate of the content interval. -/
theorem expandClampAxis_contains (g pad minS lo hi t : Int)
    (hpad : 0 ≤ pad) (hlo : lo ≤ t) (hhi : t ≤ hi) (h0 : 0 ≤ t) (hg : t < g) :
    (expandClampAxis g pad minS lo hi).1 ≤ t ∧
    t < (expandClampAxis g pad minS lo hi).1 +
      (expandClampAxis g pad minS lo hi).2 := by
  unfold expandClampAxis
  dsimp only
  split_ifs <;> constructor <;> dsimp only <;> omega

theorem bboxOf_cons_isSome (r c : Int) (rest : List Coord) :
    (bboxOf ((r, c) :: rest)).isSome := by
  rcases h : bboxOf rest with _ | bb
  · simp [bboxOf, h]
  · obtain ⟨a, b2, c2, d2⟩ := bb
    simp [bboxOf, h]

theorem bboxOf_isSome_of_mem (cells : List Coord) (p : Coord)
    (hp : p ∈ cells) : (bboxOf cells).isSome := by
  cases cells with
  | nil => cases hp
  | cons q rest =>
      obtain ⟨r, c⟩ := q
      exact bboxOf_cons_isSome r c rest

/-- Every listed coordinate lies inside the computed bounding box. -/
theorem bboxOf_mem_le :
    ∀ (cells : List Coord) (mnc mxc mnr mxr : Int),
    bboxOf cells = some (mnc, mxc, mnr, mxr) →
    ∀ p ∈ cells, mnc ≤ p.2 ∧ p.2 ≤ mxc ∧ mnr ≤ p.1 ∧ p.1 ≤ mxr := by
  intro cells
  induction cells with
  | nil =>
      intro mnc mxc mnr mxr h
      simp [bboxOf] at h
  | cons q rest ih =>
      intro mnc mxc mnr mxr h p hp
      obtain ⟨r, c⟩ := q
      rcases hb : bboxOf rest with _ | bb
      · have hrest : rest = [] := by
          cases rest with
          | nil => rfl
          | cons q2 r2 =>
              obtain ⟨r', c'⟩ := q2
              have := bboxOf_cons_isSome r' c' r2
              rw [hb] at this
              simp at this
        subst hrest
        simp only [bboxOf, hb, Option.some.injEq, Prod.mk.injEq] at h
        obtain ⟨e1, e2, e3, e4⟩ := h
        rcases List.mem_cons.mp hp with hpq | hpr
        · subst hpq
          dsimp only
          omega
        · cases hpr
      · obtain ⟨a, b2, c2, d2⟩ := bb
        simp only [bboxOf, hb, Option.some.injEq, Prod.mk.injEq] at h
        obtain ⟨e1, e2, e3, e4⟩ := h
        rcases List.mem_cons.mp hp with hpq | hpr
        · subst hpq
          dsimp only
          omega
        · have := ih a b2 c2 d2 hb p hpr
          omega

/-- A painted entry differing from the default color contributes its
coordinate to `contentCells`. -/
theorem mem_contentCells (b : Boxes) (dc0 : Int) (rc : Coord) (v : Int)
    (hmem : (rc, v) ∈ b) (hne : v ≠ dc0) : rc ∈ contentCells b dc0 := by
  simp only [contentCells, List.mem_map, List.mem_filter]
  exact ⟨(rc, v), ⟨hmem, by simpa using hne⟩, rfl⟩

/-- C3: for every frame whose sparse grid has at least one in-bounds entry
whose value differs from the frame's resolved default color, the
`'stick-figure'` (ContentBoundingBox) viewport `(x0, y0, w, h)` contains
the coordinate of every such entry and satisfies `0 ≤ x0`,
`x0 + w ≤ gridWidth`, `0 ≤ y0`, `y0 + h ≤ gridHeight`.  (Padding is
nonnegative, as the `ViewportPolicy` data model requires.) -/
theorem claim_C3_contentBBox_viewport_sound (st : AnimState) (frame : Frame)
    (gw gh x0 y0 w h : Int) (padding minW minH : Option Int)
    (hw : frame.grid_width = some gw) (hh : frame.grid_height = some gh)
    (hpad : 0 ≤ padding.getD st.viewport_padding)
    (hex : ∃ rc v, ((rc, v) ∈ frame.boxes ∧
      v ≠ frame.default_color.getD st.default_color ∧
      0 ≤ rc.1 ∧ rc.1 < gh ∧ 0 ≤ rc.2 ∧ rc.2 < gw))
    (hvp : computeViewport st frame (some "stick-figure") padding minW minH =
      (x0, y0, w, h)) :
    (∀ rc v, (rc, v) ∈ frame.boxes →
      v ≠ frame.default_color.getD st.default_color →
      0 ≤ rc.1 → rc.1 < gh → 0 ≤ rc.2 → rc.2 < gw →
      (x0 ≤ rc.2 ∧ rc.2 < x0 + w ∧ y0 ≤ rc.1 ∧ rc.1 < y0 + h)) ∧
    (0 ≤ x0 ∧ x0 + w ≤ gw ∧ 0 ≤ y0 ∧ y0 + h ≤ gh) := by
  obtain ⟨rc0, v0, hmem0, hne0, hb0⟩ := hex
  have hcell0 : rc0 ∈ contentCells frame.boxes
      (frame.default_color.getD st.default_color) :=
    mem_contentCells _ _ _ _ hmem0 hne0
  rcases hbb : bboxOf (contentCells frame.boxes
      (frame.default_color.getD st.default_color)) with _ | bb
  · have := bboxOf_isSome_of_mem _ _ hcell0
    rw [hbb] at this
    simp at this
  · obtain ⟨mnc, mxc, mnr, mxr⟩ := bb
    rw [computeViewport] at hvp
    simp only [resolveMode] at hvp
    rw [hw, hh] at hvp
    simp only [Option.getD_some] at hvp
    simp only [hbb] at hvp
    simp only [finalizeViewport, Prod.mk.injEq] at hvp
    obtain ⟨ex, ey, ew, eh⟩ := hvp
    have hbx := expandClampAxis_bounds gw (padding.getD st.viewport_padding)
      (minW.getD st.viewport_min_w) mnc mxc
    have hby := expandClampAxis_bounds gh (padding.getD st.viewport_padding)
      (minH.getD st.viewport_min_h) mnr mxr
    constructor
    · intro rc v hmem hne h1 h2 h3 h4
      have hcell : rc ∈ contentCells frame.boxes
          (frame.default_color.getD st.default_color) :=
        mem_contentCells _ _ _ _ hmem hne
      have hle := bboxOf_mem_le _ _ _ _ _ hbb rc hcell
      have hcx := expandClampAxis_contains gw (padding.getD st.viewport_padding)
        (minW.getD st.viewport_min_w) mnc mxc rc.2 hpad hle.1 hle.2.1 h3 h4
      have hcy := expandClampAxis_contains gh (padding.getD st.viewport_padding)
        (minH.getD st.viewport_min_h) mnr mxr rc.1 hpad hle.2.2.1 hle.2.2.2 h1 h2
      omega
    · omega

/-! ## Global-viewport lemmas -/

/-- When every frame carries the same explicit grid dimensions, the frame
loop ends with those dimensions. -/
theorem gvFold_dims (stD W H : Int) :
    ∀ (frames : List Frame) (acc : GVAcc), frames ≠ [] →
    (∀ f ∈ frames, f.grid_width = some W ∧ f.grid_height = some H) →
    ((frames.foldl (gvStep stD) acc).gw = W ∧
     (frames.foldl (gvStep stD) acc).gh = H) := by
  intro frames
  induction frames with
  | nil => intro acc h; exact absurd rfl h
  | cons f rest ih =>
      intro acc _ hdims
      rw [List.foldl_cons]
      cases rest with
      | nil =>
          obtain ⟨hfw, hfh⟩ := hdims f (List.mem_cons_self f [])
          simp [gvStep, hfw, hfh]
      | cons f2 r2 =>
          exact ih (gvStep stD acc f) (by simp)
            (fun g hg => hdims g (List.mem_cons_of_mem f hg))

/-- The bounding-box component of the frame loop is the plain merge fold
over the frames. -/
theorem gvFold_bbox (stD : Int) :
    ∀ (frames : List Frame) (acc : GVAcc),
    (frames.foldl (gvStep stD) acc).bbox =
      frames.foldl (fun ob f => mergeBBox ob (frameBBox stD f)) acc.bbox := by
  intro frames
  induction frames with
  | nil => intro acc; rfl
  | cons f rest ih =>
      intro acc
      rw [List.foldl_cons, List.foldl_cons, ih]
      rfl

theorem mergeBBox_comm (a b : Option (Int × Int × Int × Int)) :
    mergeBBox a b = mergeBBox b a := by
  rcases a with _ | ⟨a1, a2, a3, a4⟩ <;> rcases b with _ | ⟨b1, b2, b3, b4⟩ <;>
    simp [mergeBBox] <;> omega

theorem mergeBBox_assoc (a b c : Option (Int × Int × Int × Int)) :
    mergeBBox (mergeBBox a b) c = mergeBBox a (mergeBBox b c) := by
  rcases a with _ | ⟨a1, a2, a3, a4⟩ <;> rcases b with _ | ⟨b1, b2, b3, b4⟩ <;>
    rcases c with _ | ⟨c1, c2, c3, c4⟩ <;> simp [mergeBBox] <;> omega

/-- The merge fold is invariant under permutation of the frame list. -/
theorem bboxFold_perm (stD : Int) {l1 l2 : List Frame} (hp : l1.Perm l2)
    (ob : Option (Int × Int × Int × Int)) :
    l1.foldl (fun ob f => mergeBBox ob (frameBBox stD f)) ob =
    l2.foldl (fun ob f => mergeBBox ob (frameBBox stD f)) ob := by
  haveI : RightCommutative (fun ob f => mergeBBox ob (frameBBox stD f)) :=
    ⟨fun b a1 a2 => by
      rw [mergeBBox_assoc, mergeBBox_assoc,
        mergeBBox_comm (frameBBox stD a1) (frameBBox stD a2)]⟩
  exact hp.foldl_eq ob

/-- The merge fold only grows the accumulator. -/
theorem bboxFold_mono (stD : Int) :
    ∀ (frames : List Frame) (acc : Option (Int × Int × Int × Int))
      (g bb : Int × Int × Int × Int),
    frames.foldl (fun ob f => mergeBBox ob (frameBBox stD f)) acc = some g →
    acc = some bb → containsBB g bb := by
  intro frames
  induction frames with
  | nil =>
      intro acc g bb hf ha
      rw [List.foldl_nil] at hf
      rw [ha] at hf
      obtain ⟨g1, g2, g3, g4⟩ := g
      obtain ⟨b1, b2, b3, b4⟩ := bb
      simp only [Option.some.injEq, Prod.mk.injEq] at hf
      simp only [containsBB]
      omega
  | cons f rest ih =>
      intro acc g bb hf ha
      rw [List.foldl_cons] at hf
      subst ha
      rcases hfb : frameBBox stD f with _ | c
      · rw [hfb] at hf
        exact ih _ g bb hf rfl
      · rw [hfb] at hf
        obtain ⟨b1, b2, b3, b4⟩ := bb
        obtain ⟨c1, c2, c3, c4⟩ := c
        have hm := ih _ g _ hf rfl
        simp only [mergeBBox, containsBB] at hm ⊢
        omega

/-- Every frame's own bounding box is contained in the merge fold's
result. -/
theorem bboxFold_contains (stD : Int) :
    ∀ (frames : List Frame) (acc : Option (Int × Int × Int × Int))
      (g : Int × Int × Int × Int) (f : Frame)
      (bb : Int × Int × Int × Int),
    frames.foldl (fun ob f => mergeBBox ob (frameBBox stD f)) acc = some g →
    f ∈ frames → frameBBox stD f = some bb → containsBB g bb := by
  intro frames
  induction frames with
  | nil =>
      intro _ _ f _ _ hmem
      cases hmem
  | cons f0 rest ih =>
      intro acc g f bb hf hmem hfb
      rw [List.foldl_cons] at hf
      rcases List.mem_cons.mp hmem with he | hr
      · subst he
        rw [hfb] at hf
        rcases acc with _ | a
        · exact bboxFold_mono stD rest _ g bb hf rfl
        · obtain ⟨a1, a2, a3, a4⟩ := a
          obtain ⟨b1, b2, b3, b4⟩ := bb
          have hm := bboxFold_mono stD rest _ g _ hf rfl
          simp only [mergeBBox, containsBB] at hm ⊢
          omega
      · exact ih _ g f bb hf hr hfb

/-- The merge fold never forgets an accumulated box. -/
theorem foldl_merge_isSome (stD : Int) :
    ∀ (frames : List Frame) (m : Int × Int × Int × Int),
    (frames.foldl (fun ob f => mergeBBox ob (frameBBox stD f)) (some m)).isSome := by
  intro frames
  induction frames with
  | nil => intro m; simp
  | cons f rest ih =>
      intro m
      rw [List.foldl_cons]
      rcases hfb : frameBBox stD f with _ | c
      · simpa [mergeBBox] using ih m
      · obtain ⟨m1, m2, m3, m4⟩ := m
        obtain ⟨c1, c2, c3, c4⟩ := c
        simpa [mergeBBox] using ih _

/-- The merge fold is `some` as soon as one frame contributes a box. -/
theorem bboxFold_isSome (stD : Int) :
    ∀ (frames : List Frame) (acc : Option (Int × Int × Int × Int)) (f : Frame),
    f ∈ frames → (frameBBox stD f).isSome →
    (frames.foldl (fun ob f => mergeBBox ob (frameBBox stD f)) acc).isSome := by
  intro frames
  induction frames with
  | nil =>
      intro _ f hmem
      cases hmem
  | cons f0 rest ih =>
      intro acc f hmem hfb
      rw [List.foldl_cons]
      rcases List.mem_cons.mp hmem with he | hr
      · subst he
        obtain ⟨bb, hbb⟩ := Option.isSome_iff_exists.mp hfb
        rw [hbb]
        cases rest with
        | nil =>
            rcases acc with _ | a
            · simp [mergeBBox]
            · obtain ⟨a1, a2, a3, a4⟩ := a
              obtain ⟨b1, b2, b3, b4⟩ := bb
              simp [mergeBBox]
        | cons f2 r2 =>
            have hsome : (mergeBBox acc (some bb)).isSome := by
              rcases acc with _ | a
              · simp [mergeBBox]
              · obtain ⟨a1, a2, a3, a4⟩ := a
                obtain ⟨b1, b2, b3, b4⟩ := bb
                simp [mergeBBox]
            obtain ⟨m, hm⟩ := Option.isSome_iff_exists.mp hsome
            rw [hm] at *
            exact foldl_merge_isSome stD (f2 :: r2) m
      · exact ih _ f hr hfb

/-- Normal form of `computeGlobalViewport` on a non-empty frame list whose
frames all carry the same explicit grid dimensions: the result depends
only on those dimensions, the policy parameters, and the merge fold of
the per-frame bounding boxes. -/
theorem computeGlobalViewport_normal (st : AnimState) (frames : List Frame)
    (padding minW minH : Option Int) (W H : Int)
    (hne : frames ≠ [])
    (hdims : ∀ f ∈ frames, f.grid_width = some W ∧ f.grid_height = some H) :
    computeGlobalViewport st (some frames) padding minW minH =
      match frames.foldl
          (fun ob f => mergeBBox ob (frameBBox st.default_color f)) none with
      | none => gvFallback W H (minW.getD st.viewport_min_w)
          (minH.getD st.viewport_min_h)
      | some (mnc, mxc, mnr, mxr) =>
          finalizeViewport W H (padding.getD st.viewport_padding)
            (minW.getD st.viewport_min_w) (minH.getD st.viewport_min_h)
            mnc mxc mnr mxr := by
  have hie : frames.isEmpty = false := by
    cases frames with
    | nil => exact absurd rfl hne
    | cons f r => rfl
  rw [computeGlobalViewport]
  simp only [hie, Bool.false_eq_true, if_false]
  rw [(gvFold_dims st.default_color W H frames _ hne hdims).1,
    (gvFold_dims st.default_color W H frames _ hne hdims).2,
    gvFold_bbox st.default_color frames _]

/-- C2 (amended): for a non-empty frame list whose frames all carry the
same explicit grid dimensions, and nonnegative padding, the `lockToUnion`
global viewport contains every in-bounds non-default cell of every frame
(so it covers each frame's `ContentBoundingBox` content region), and the
computed viewport is identical for every permutation of the frame
list. -/
theorem claim_C2_globalViewport_covers_and_permutation_invariant
    (st : AnimState) (frames : List Frame) (W H x0 y0 w h : Int)
    (padding minW minH : Option Int)
    (hne : frames ≠ [])
    (hdims : ∀ f ∈ frames, f.grid_width = some W ∧ f.grid_height = some H)
    (hpad : 0 ≤ padding.getD st.viewport_padding)
    (hvp : computeGlobalViewport st (some frames) padding minW minH =
      (x0, y0, w, h)) :
    (∀ frames2, frames.Perm frames2 →
      computeGlobalViewport st (some frames2) padding minW minH =
        (x0, y0, w, h)) ∧
    (∀ f ∈ frames, ∀ rc v, (rc, v) ∈ f.boxes →
      v ≠ f.default_color.getD st.default_color →
      0 ≤ rc.1 → rc.1 < H → 0 ≤ rc.2 → rc.2 < W →
      (x0 ≤ rc.2 ∧ rc.2 < x0 + w ∧ y0 ≤ rc.1 ∧ rc.1 < y0 + h)) := by
  constructor
  · intro frames2 hperm
    have hne2 : frames2 ≠ [] := by
      intro h2
      subst h2
      exact hne hperm.eq_nil
    have hdims2 : ∀ f ∈ frames2, f.grid_width = some W ∧
        f.grid_height = some H :=
      fun f hf => hdims f (hperm.mem_iff.mpr hf)
    rw [computeGlobalViewport_normal st frames2 padding minW minH W H hne2 hdims2,
      ← bboxFold_perm st.default_color hperm none,
      ← computeGlobalViewport_normal st frames padding minW minH W H hne hdims]
    exact hvp
  · intro f hf rc v hmem hnev h1 h2 h3 h4
    rw [computeGlobalViewport_normal st frames padding minW minH W H hne hdims]
      at hvp
    have hcell : rc ∈ contentCells f.boxes
        (f.default_color.getD st.default_color) :=
      mem_contentCells _ _ _ _ hmem hnev
    have hfbsome : (frameBBox st.default_color f).isSome :=
      bboxOf_isSome_of_mem _ _ hcell
    rcases hfold : frames.foldl
        (fun ob f => mergeBBox ob (frameBBox st.default_color f)) none
        with _ | bb
    · have := bboxFold_isSome st.default_color frames none f hf hfbsome
      rw [hfold] at this
      simp at this
    · obtain ⟨mnc, mxc, mnr, mxr⟩ := bb
      rw [hfold] at hvp
      obtain ⟨fb, hfb⟩ := Option.isSome_iff_exists.mp hfbsome
      have hcont := bboxFold_contains st.default_color frames none
        (mnc, mxc, mnr, mxr) f fb hfold hf hfb
      obtain ⟨fb1, fb2, fb3, fb4⟩ := fb
      have hle := bboxOf_mem_le _ _ _ _ _ hfb rc hcell
      simp only [containsBB] at hcont
      have hcx := expandClampAxis_contains W (padding.getD st.viewport_padding)
        (minW.getD st.viewport_min_w) mnc mxc rc.2 hpad (by omega) (by omega)
        h3 h4
      have hcy := expandClampAxis_contains H (padding.getD st.viewport_padding)
        (minH.getD st.viewport_min_h) mnr mxr rc.1 hpad (by omega) (by omega)
        h1 h2
      simp only [finalizeViewport, Prod.mk.injEq] at hvp
      obtain ⟨ex, ey, ew, eh⟩ := hvp
      omega

/-- C2 (counterexample): on frames with different grid dimensions the
`lockToUnion` viewport depends on the frame order, and the viewport of
one order fails to cover frame A's in-bounds content cell `(50, 50)`. -/
theorem claim_C2_counterexample :
    ([cexFrameA, cexFrameB].Perm [cexFrameB, cexFrameA]) ∧
    computeGlobalViewport initState (some [cexFrameA, cexFrameB])
      none none none ≠
    computeGlobalViewport initState (some [cexFrameB, cexFrameA])
      none none none ∧
    ((((50 : Int), (50 : Int)), (1 : Int)) ∈ cexFrameA.boxes ∧
     (0 : Int) ≤ 50 ∧ (50 : Int) < 100) ∧
    ¬ ((computeGlobalViewport initState (some [cexFrameA, cexFrameB])
          none none none).1 ≤ 50 ∧
       (50 : Int) < (computeGlobalViewport initState
          (some [cexFrameA, cexFrameB]) none none none).1 +
         (computeGlobalViewport initState (some [cexFrameA, cexFrameB])
          none none none).2.2.1) := by
  refine ⟨List.Perm.swap _ _ _, by decide, by decide, by decide⟩

/-- Witness for C2's amended theorem: two same-size 20×20 frames, the
global viewport `(1, 0, 16, 16)` is order-independent and contains frame
B's cell `(10, 12)`. -/
theorem claim_C2_witness :
    computeGlobalViewport initState (some [wFrameA, wFrameB])
      none none none = (1, 0, 16, 16) ∧
    computeGlobalViewport initState (some [wFrameB, wFrameA])
      none none none = (1, 0, 16, 16) ∧
    ((1 : Int) ≤ 12 ∧ (12 : Int) < 1 + 16 ∧ (0 : Int) ≤ 10 ∧
     (10 : Int) < 0 + 16) := by
  have h := claim_C2_globalViewport_covers_and_permutation_invariant
    initState [wFrameA, wFrameB] 20 20 1 0 16 16 none none none
    (by decide) (by decide) (by decide) (by decide)
  exact ⟨by decide, h.1 [wFrameB, wFrameA] (List.Perm.swap _ _ _),
    h.2 wFrameB (by decide) (10, 12) 1 (by decide) (by decide) (by decide)
      (by decide) (by decide) (by decide)⟩

/-- Witness for C3: the 20×20 frame with cells `(5, 5)` and `(8, 9)`
resolves to viewport `(0, 0, 16, 15)`, which contains `(8, 9)` and sits
inside the grid. -/
theorem claim_C3_witness :
    computeViewport initState c3Frame (some "stick-figure") none none none =
      (0, 0, 16, 15) ∧
    ((0 : Int) ≤ 9 ∧ (9 : Int) < 0 + 16 ∧ (0 : Int) ≤ 8 ∧
     (8 : Int) < 0 + 15) ∧
    ((0 : Int) ≤ 0 ∧ (0 : Int) + 16 ≤ 20 ∧ (0 : Int) ≤ 0 ∧
     (0 : Int) + 15 ≤ 20) := by
  have h := claim_C3_contentBBox_viewport_sound initState c3Frame 20 20
    0 0 16 15 none none none rfl rfl (by decide)
    ⟨(5, 5), 1, by decide⟩ (by decide)
  exact ⟨by decide,
    h.1 (8, 9) 1 (by decide) (by decide) (by decide) (by decide) (by decide)
      (by decide), h.2⟩

/-! ## Circle-drawing lemmas -/

theorem plotPoints_append (g : IGrid) (l1 l2 : List Coord) (color : Int) :
    plotPoints g (l1 ++ l2) color = plotPoints (plotPoints g l1 color) l2 color := by
  rw [plotPoints, plotPoints, plotPoints, List.foldl_append]

/-- The plotting loop applies exactly the emitted point list. -/
theorem drawCircleLoop_eq_plot (cx cy color : Int) (g : IGrid) (x y d : Int) :
    drawCircleLoop cx cy color g x y d =
      plotPoints g (circlePoints cx cy x y d) color := by
  induction g, x, y, d using drawCircleLoop.induct cx cy color with
  | case1 g x y d hxy hd ih =>
      rw [drawCircleLoop, circlePoints, if_pos hxy, if_pos hxy, if_pos hd,
        if_pos hd, plotPoints_append]
      exact ih
  | case2 g x y d hxy hd ih =>
      rw [drawCircleLoop, circlePoints, if_pos hxy, if_pos hxy, if_neg hd,
        if_neg hd, plotPoints_append]
      exact ih
  | case3 g x y d hxy =>
      rw [drawCircleLoop, circlePoints, if_neg hxy, if_neg hxy]
      rfl

/-- C9: `draw_circle` fails with the `ValueError` (`InvalidArgument`) for
every radius below 1, leaving the grid untouched, and for every radius at
least 1 it plots exactly the 8-way symmetric midpoint-circle point set,
with every generated point outside grid bounds silently skipped (the
in-bounds guard inside `plotPoints`); in particular `radius = 0` fails. -/
theorem claim_C9_drawCircle_validation_and_point_set
    (g : IGrid) (cx cy radius color : Int) :
    (radius < 1 →
      drawCircle g cx cy radius color =
        .error "Minimum radius is 1 (3 grid squares diameter)") ∧
    (1 ≤ radius →
      drawCircle g cx cy radius color =
        .ok (plotPoints g (circlePoints cx cy radius 0 (1 - radius)) color)) := by
  constructor
  · intro h
    rw [drawCircle, if_pos h]
  · intro h
    rw [drawCircle, if_neg (by omega), drawCircleLoop_eq_plot]

/-- Witness for C9: on the 5×5 grid, radius 0 raises and radius 1 plots
the 8-point ring around `(2, 2)`. -/
theorem claim_C9_witness :
    drawCircle exGrid5 2 2 0 1 =
      .error "Minimum radius is 1 (3 grid squares diameter)" ∧
    drawCircle exGrid5 2 2 1 1 =
      .ok { grid_width := 5, grid_height := 5
            grid := [[0, 0, 0, 0, 0], [0, 1, 1, 1, 0], [0, 1, 0, 1, 0],
                     [0, 1, 1, 1, 0], [0, 0, 0, 0, 0]] } := by
  have hpts : circlePoints 2 2 1 0 (1 - 1) =
      [(3, 2), (2, 3), (2, 3), (1, 2), (1, 2), (2, 1), (2, 1), (3, 2),
       (3, 3), (3, 3), (1, 3), (1, 3), (1, 1), (1, 1), (3, 1), (3, 1)] := by
    rw [circlePoints]
    norm_num [circleStepPoints]
    rw [circlePoints]
    norm_num [circleStepPoints]
    rw [circlePoints]
    norm_num
  refine ⟨(claim_C9_drawCircle_validation_and_point_set exGrid5 2 2 0 1).1
      (by decide),
    ((claim_C9_drawCircle_validation_and_point_set exGrid5 2 2 1 1).2
      (by decide)).trans ?_⟩
  rw [hpts]
  exact congrArg Except.ok (by decide)

/-! ## Claims about the selection moves -/

/-- C6: `move_selection` computes the move as a batch: for every painted
coordinate inside the selection rectangle it computes the shifted
destination, drops (does not wrap) destinations outside grid bounds,
removes all source entries first, and then writes all surviving
destinations (`moveResultSpec` is exactly that final map); the operation
succeeds on a valid frame. -/
theorem claim_C6_moveSelection_batch (st : AnimState)
    (fi r0 c0 r1 c1 dr dc : Int) (frame : Frame) (gw gh : Int)
    (hge : 0 ≤ fi) (hlt : fi < (st.frames.length : Int))
    (hf : st.frames[fi.toNat]? = some frame)
    (hw : frame.grid_width = some gw) (hh : frame.grid_height = some gh)
    (hnd : (frame.boxes.map (fun p => p.1)).Nodup) :
    (moveSelection st fi r0 c0 r1 c1 dr dc).1 = true ∧
    ∃ frame',
      ((moveSelection st fi r0 c0 r1 c1 dr dc).2.frames[fi.toNat]? =
        some frame' ∧
       ∀ k, getv frame'.boxes k =
         moveResultSpec frame.boxes r0 c0 r1 c1 dr dc gw gh k) :=
  moveSelection_spec st fi r0 c0 r1 c1 dr dc frame gw gh hge hlt hf hw hh hnd

/-- Witness for C6: moving rect `{r0:2, c0:3, r1:4, c1:6}` by
`(dr, dc) = (1, 0)` on a 10×10 frame with painted cell `(3, 4)` yields
`(4, 4)` painted and `(3, 4)` empty, and the call succeeds. -/
theorem claim_C6_witness :
    (moveSelection exMoveState 0 2 3 4 6 1 0).1 = true ∧
    ((moveSelection exMoveState 0 2 3 4 6 1 0).2.frames[(0 : Int).toNat]?).map
      (fun f => (getv f.boxes (4, 4), getv f.boxes (3, 4))) =
      some (some 1, none) := by
  obtain ⟨hs, frame', hf', hchar⟩ :=
    claim_C6_moveSelection_batch exMoveState 0 2 3 4 6 1 0 exMoveFrame 10 10
      (by decide) (by decide) rfl rfl rfl (by decide)
  refine ⟨hs, ?_⟩
  rw [hf', Option.map_some']
  rw [hchar (4, 4), hchar (3, 4)]
  decide

/-- C10: in both `move_selection` and `translate_object`, whenever a
surviving in-bounds destination coincides with an already painted cell
that lies outside the selection rectangle (resp. outside the coordinate
set), the existing value is overwritten with the moved value and the
operation still returns success. -/
theorem claim_C10_destination_overwrites :
    (∀ (st : AnimState) (fi r0 c0 r1 c1 dr dc : Int) (frame : Frame)
        (gw gh : Int) (k : Coord) (v wv : Int),
      0 ≤ fi → fi < (st.frames.length : Int) →
      st.frames[fi.toNat]? = some frame →
      frame.grid_width = some gw → frame.grid_height = some gh →
      (frame.boxes.map (fun p => p.1)).Nodup →
      inRect r0 c0 r1 c1 (k.1 - dr, k.2 - dc) →
      getv frame.boxes (k.1 - dr, k.2 - dc) = some v →
      inGrid gw gh k →
      ¬ inRect r0 c0 r1 c1 k →
      getv frame.boxes k = some wv →
      ((moveSelection st fi r0 c0 r1 c1 dr dc).1 = true ∧
       ∃ frame',
         ((moveSelection st fi r0 c0 r1 c1 dr dc).2.frames[fi.toNat]? =
           some frame' ∧
          getv frame'.boxes k = some v))) ∧
    (∀ (st : AnimState) (fi : Int) (coords : List Coord) (dr dc : Int)
        (frame : Frame) (gw gh : Int) (k : Coord) (v wv : Int),
      0 ≤ fi → fi < (st.frames.length : Int) →
      st.frames[fi.toNat]? = some frame →
      frame.grid_width = some gw → frame.grid_height = some gh →
      coords.Nodup →
      (k.1 - dr, k.2 - dc) ∈ coords →
      getv frame.boxes (k.1 - dr, k.2 - dc) = some v →
      inGrid gw gh k →
      k ∉ coords →
      getv frame.boxes k = some wv →
      ((translateObject st fi coords dr dc).1 = true ∧
       ∃ frame',
         ((translateObject st fi coords dr dc).2.frames[fi.toNat]? =
           some frame' ∧
          getv frame'.boxes k = some v))) := by
  constructor
  · intro st fi r0 c0 r1 c1 dr dc frame gw gh k v wv hge hlt hf hw hh hnd
      hr hv hg hnr hwv
    obtain ⟨hs, frame', hf', hchar⟩ :=
      moveSelection_spec st fi r0 c0 r1 c1 dr dc frame gw gh hge hlt hf hw hh hnd
    refine ⟨hs, frame', hf', ?_⟩
    rw [hchar k]
    simp only [moveResultSpec]
    rw [if_pos ⟨hr, hg, by rw [hv]; rfl⟩, hv]
  · intro st fi coords dr dc frame gw gh k v wv hge hlt hf hw hh hnd
      hmem hv hg hnm hwv
    obtain ⟨hs, frame', hf', hchar⟩ :=
      translateObject_spec st fi coords dr dc frame gw gh hge hlt hf hw hh hnd
    refine ⟨hs, frame', hf', ?_⟩
    rw [hchar k]
    simp only [transResultSpec]
    rw [if_pos ⟨hmem, by rw [hv]; rfl, hg⟩, hv]

/-- Witness for C10: on a 10×10 frame with `(3, 4) ↦ 1` and `(4, 4) ↦ 5`,
moving rect `{2..3} × {3..6}` (resp. translating the coordinate set
`[(3, 4)]`) by `(1, 0)` overwrites `(4, 4)` with `1` and succeeds. -/
theorem claim_C10_witness :
    ((moveSelection exMove2State 0 2 3 3 6 1 0).1 = true ∧
     ((moveSelection exMove2State 0 2 3 3 6 1 0).2.frames[(0 : Int).toNat]?).map
       (fun f => getv f.boxes (4, 4)) = some (some 1)) ∧
    ((translateObject exMove2State 0 [(3, 4)] 1 0).1 = true ∧
     ((translateObject exMove2State 0 [(3, 4)] 1 0).2.frames[(0 : Int).toNat]?).map
       (fun f => getv f.boxes (4, 4)) = some (some 1)) := by
  constructor
  · obtain ⟨hs, frame', hf', hval⟩ :=
      claim_C10_destination_overwrites.1 exMove2State 0 2 3 3 6 1 0
        exMove2Frame 10 10 (4, 4) 1 5 (by decide) (by decide) rfl rfl rfl
        (by decide) (by decide) (by decide) (by decide) (by decide) (by decide)
    exact ⟨hs, by rw [hf']; exact congrArg some hval⟩
  · obtain ⟨hs, frame', hf', hval⟩ :=
      claim_C10_destination_overwrites.2 exMove2State 0 [(3, 4)] 1 0
        exMove2Frame 10 10 (4, 4) 1 5 (by decide) (by decide) rfl rfl rfl
        (by decide) (by decide) (by decide) (by decide) (by decide) (by decide)
    exact ⟨hs, by rw [hf']; exact congrArg some hval⟩

/-! ## Export claims -/

/-- The export loop accumulator unrolls to the expected stream. -/
theorem exportFrames_eq (st : AnimState) (fps : Int)
    (gvp : Option (Int × Int × Int × Int)) :
    ∀ (fs : List Frame) (i : Nat) (acc : List RenderedImage),
    i + fs.length ≤ st.timings.length →
    exportFrames st fps gvp fs i acc =
      some (acc ++ exportStreamFrom st fps gvp fs i) := by
  intro fs
  induction fs with
  | nil =>
      intro i acc _
      simp [exportFrames, exportStreamFrom]
  | cons f rest ih =>
      intro i acc h
      have hi : i < st.timings.length := by
        simp only [List.length_cons] at h
        omega
      obtain ⟨t, ht⟩ : ∃ t, st.timings[i]? = some t :=
        ⟨_, List.getElem?_eq_getElem hi⟩
      simp only [exportFrames, exportStreamFrom, ht, Option.getD_some]
      rw [ih (i + 1) _ (by simp only [List.length_cons] at h; omega)]
      rw [List.append_assoc]

/-- C1 (amended): whenever the timings list covers the frame list,
`export_to_video` emits, for each frame `i` in sequence order, the
rendered image of frame `i` repeated exactly
`max(1, int((fps * timings[i]) / 1000))` times — i.e. with the quotient
truncated toward zero, not rounded — using the locked global viewport or
the per-frame viewport according to `lock_viewport`. -/
theorem claim_C1_export_stream_truncated_repeats (st : AnimState) (fps : Int)
    (h : st.frames.length ≤ st.timings.length) :
    exportToVideo st fps = some (exportStream st fps) := by
  rw [exportToVideo, exportStream]
  rw [exportFrames_eq st fps _ st.frames 0 [] (by omega)]
  rw [List.nil_append]

/-- Witness for C1 (the spec's own example, which truncation also
satisfies): a 2-frame sequence with durations `[200, 400]` at `fps = 5`
yields 1 repeated image, then 2 repeated images — 3 images in total. -/
theorem claim_C1_witness :
    exportToVideo exExportState 5 = some (exportStream exExportState 5) ∧
    (exportStream exExportState 5).length = 3 ∧
    exportRepeats 5 200 = 1 ∧ exportRepeats 5 400 = 2 := by
  refine ⟨claim_C1_export_stream_truncated_repeats exExportState 5 (by decide),
    by decide, by decide, by decide⟩

/-- C1 (counterexample): with one frame of duration 300 ms at `fps = 5`
the code emits `max(1, int(1.5)) = 1` image, while the claim's rounding
formula demands `max(1, round(1.5)) = 2`. -/
theorem claim_C1_counterexample :
    (exportToVideo cexExportState 5).map List.length = some 1 ∧
    specRepeatCount 5 300 = 2 := by
  constructor
  · decide
  · rw [specRepeatCount]
    norm_num [round_eq]

/-! ## Persistence claims -/

/-- C4: saving an animation and loading the produced document restores
the frames, timings, backgrounds, names and viewport policy exactly, for
any prior state of the loading object. -/
theorem claim_C4_save_load_roundtrip (s t : AnimState) :
    ((loadAnimation t (saveAnimation s)).frames = s.frames) ∧
    ((loadAnimation t (saveAnimation s)).timings = s.timings) ∧
    ((loadAnimation t (saveAnimation s)).backgrounds = s.backgrounds) ∧
    ((loadAnimation t (saveAnimation s)).frame_names = s.frame_names) ∧
    ((loadAnimation t (saveAnimation s)).background_names =
      s.background_names) ∧
    ((loadAnimation t (saveAnimation s)).viewport_mode = s.viewport_mode) ∧
    ((loadAnimation t (saveAnimation s)).viewport_padding =
      s.viewport_padding) ∧
    ((loadAnimation t (saveAnimation s)).viewport_min_w = s.viewport_min_w) ∧
    ((loadAnimation t (saveAnimation s)).viewport_min_h = s.viewport_min_h) ∧
    ((loadAnimation t (saveAnimation s)).lock_viewport = s.lock_viewport) := by
  rw [loadAnimation, saveAnimation]
  rcases hf : s.frames.head? with _ | f <;> simp [hf]

/-- C7 (counterexample): loading a document whose `timings`,
`backgrounds` and `frame_names` arrays are present but shorter than
`frames` does not pad them — the arrays keep their original lengths, so
they do not all match the frame count after loading. -/
theorem claim_C7_counterexample :
    (loadAnimation initState cexShortDoc).frames.length = 2 ∧
    (loadAnimation initState cexShortDoc).timings.length = 1 ∧
    (loadAnimation initState cexShortDoc).backgrounds.length = 0 ∧
    (loadAnimation initState cexShortDoc).frame_names.length = 1 := by
  decide

/-- C7 (amended): the loader synthesizes the documented defaults
(`null` background, `"Frame_N.json"` label, empty background name) as
whole arrays of the same length as `frames` only when the corresponding
key is absent from the document; a present-but-shorter array is kept
verbatim, and `timings` is always taken verbatim (and is required). -/
theorem claim_C7_absent_key_defaults (st : AnimState) (d : AnimDoc)
    (hb : d.backgrounds = none) (hn : d.frame_names = none)
    (hbn : d.background_names = none) :
    (loadAnimation st d).timings = d.timings ∧
    (loadAnimation st d).backgrounds =
      List.replicate d.frames.length none ∧
    (loadAnimation st d).frame_names = defaultFrameNames d.frames.length ∧
    (loadAnimation st d).background_names =
      List.replicate d.frames.length "" := by
  rw [loadAnimation]
  rcases hf : d.frames.head? with _ | f <;> simp [hb, hn, hbn, hf]

/-- Witness for C7's amended theorem: a 2-frame document with every
optional key absent loads with the documented defaults and its timings
verbatim. -/
theorem claim_C7_witness :
    (loadAnimation initState exBareDoc).timings = [100, 150] ∧
    (loadAnimation initState exBareDoc).backgrounds = [none, none] ∧
    (loadAnimation initState exBareDoc).frame_names =
      ["Frame_1.json", "Frame_2.json"] ∧
    (loadAnimation initState exBareDoc).background_names = ["", ""] := by
  have h := claim_C7_absent_key_defaults initState exBareDoc rfl rfl rfl
  exact ⟨h.1.trans (by decide), h.2.1.trans (by decide),
    h.2.2.1.trans (by decide), h.2.2.2.trans (by decide)⟩

/-- C8 (counterexample): appending a frame with the non-positive duration
`0` does not fail — the frame is appended and the timing `0` is stored,
so there is no positive-duration validation at all. -/
theorem claim_C8_counterexample :
    (addFrameFromJson initState "f.json" exExpFrame1 0 none).timings = [0] ∧
    (addFrameFromJson initState "f.json" exExpFrame1 0 none).frames =
      [exExpFrame1] := by
  decide

/-- C8 (amended): `add_frame_from_json` performs no validation at all:
for every duration (positive or not) the frame is appended at the end of
the list together with its background, duration and label. -/
theorem claim_C8_append_no_validation (st : AnimState) (path : String)
    (f : Frame) (dur : Int) (bg : Option (String × Background)) :
    (addFrameFromJson st path f dur bg).frames = st.frames ++ [f] ∧
    (addFrameFromJson st path f dur bg).timings = st.timings ++ [dur] ∧
    (addFrameFromJson st path f dur bg).frame_names =
      st.frame_names ++ [(path.splitOn "/").getLastD ""] ∧
    (addFrameFromJson st path f dur bg).backgrounds =
      st.backgrounds ++
        [match bg with
         | some (p, b) => if p = "" then none else some b
         | none => none] ∧
    (addFrameFromJson st path f dur bg).background_names =
      st.background_names ++
        [match bg with
         | some (p, _) => if p = "" then "" else (p.splitOn "/").getLastD ""
         | none => ""] := by
  rcases bg with _ | ⟨p, b⟩
  · simp [addFrameFromJson]
  · by_cases hp : p = "" <;> simp [addFrameFromJson, hp]

/-! ## Compositor style-override claims -/

/-- C5 (counterexample): a cell whose foreground entry resolves to the
background color (value 0 on default color 0 — rendered `"white"` without
an override) is nevertheless drawn in the override color by both
compositor paths when `stick_figure_color` is set. -/
theorem claim_C5_counterexample :
    canvasCellColor cexStyleFramePlain 0 0 = some "white" ∧
    canvasCellColor cexStyleFrame 0 0 = some "#ff0000" ∧
    imageCellColor cexStyleFrame 0 0 = some [255, 0, 0] := by
  decide

/-- C5 (amended): in both compositor paths, a truthy style override
replaces the computed color for every cell that has a foreground entry —
whether that entry resolves to ink or to the background color — and cells
without an entry are not drawn at all. -/
theorem claim_C5_override_applies_to_every_entry (frame : Frame)
    (row col : Int) (sc : String)
    (hs : frame.stick_figure_color = some sc) (hne : sc ≠ "") :
    canvasCellColor frame row col =
      (getv frame.boxes (row, col)).map (fun _ => sc) ∧
    imageCellColor frame row col =
      (getv frame.boxes (row, col)).map (fun _ => overrideRGB sc) := by
  rcases hv : getv frame.boxes (row, col) with _ | v <;>
    simp [canvasCellColor, imageCellColor, overrideRGB, hv, hs, hne]

/-- Witness for C5's amended theorem: with override `"#ff0000"`, the
entry cell `(0, 0)` (which resolves to background) is drawn in the
override color on both paths, and the entryless cell `(1, 1)` is not
drawn. -/
theorem claim_C5_witness :
    canvasCellColor cexStyleFrame 0 0 = some "#ff0000" ∧
    imageCellColor cexStyleFrame 0 0 = some [255, 0, 0] ∧
    canvasCellColor cexStyleFrame 1 1 = none := by
  have h0 := claim_C5_override_applies_to_every_entry cexStyleFrame 0 0
    "#ff0000" rfl (by decide)
  have h1 := claim_C5_override_applies_to_every_entry cexStyleFrame 1 1
    "#ff0000" rfl (by decide)
  exact ⟨h0.1.trans (by decide), h0.2.trans (by decide),
    h1.1.trans (by decide)⟩

end GridDesigner
